import Mathlib

/-!
# kvant-node: the unbond executor and the sell-all estimator

A shallow embedding of `core/transaction/unbond.go` (`UnbondData.BasicCheck`,
`UnbondData.Run`, `UnbondData.TotalSpend`), of
`api/v2/service/estimate_coin_sell_all.go` (`Service.EstimateCoinSellAll`) and
of the start-up code in `cmd/minter/cmd/node.go` (`runNode` up to the building
of the application, `updateBlocksTimeDelta`).

* `*big.Int` values are `Int`; a nil `*big.Int` is `none`.
* `uint64` values are `Nat`, additions and subtractions are taken modulo
  `2 ^ 64`; `int64` values are `Int`.
* A call that panics has an outcome of its own (`none`, or a `panicked` flag).
* Addresses, public keys and coin symbols are fixed-width byte strings in the
  source; here they are arbitrary types with decidable equality (finite where
  a sum over all of them is taken).
* The entity stores (`Accounts`, `Coins`, `Candidates`, `FrozenFunds`) are not
  part of the sources at hand; each store operation used by the executor is
  modelled from the specification and marked so.
* Constants and pure helpers of absent packages (`formula`, `commissions`,
  `types`, `Transaction.CommissionInBaseCoin`, `Transaction.Gas`) are fields of
  `Env`: every theorem holds whatever they are.
-/

namespace Kvant

set_option linter.unusedSectionVars false

/-! ## Data model -/

/-- Response codes of package `code` that the unbond executor can produce. -/
inductive Code where
  | OK
  | DecodeError
  | CoinNotExists
  | CandidateNotFound
  | StakeNotFound
  | InsufficientStake
  | CoinReserveUnderflow
  | CoinReserveNotSufficient
  | InsufficientFunds
  deriving DecidableEq, Repr

/-- The `Response` of a transaction executor. `Info` is the map handed to
`EncodeError`, kept as its list of key/value pairs (empty when the field is not
set); `Tags` are the `kv.Pairs`. -/
structure Response where
  Code : Code
  Log : String
  Info : List (String × String)
  GasUsed : Int
  GasWanted : Int
  Tags : List (String × String)
  deriving DecidableEq, Repr

/-- An error response: only `Code`, `Log` and `Info` are set. -/
def Response.error (c : Kvant.Code) (log : String) (info : List (String × String)) : Response :=
  { Code := c, Log := log, Info := info, GasUsed := 0, GasWanted := 0, Tags := [] }

/-- A coin record (`coins.Model`): volume, reserve, constant reserve ratio and
the symbol text `CName`. -/
structure CoinModel where
  volume : Int
  reserve : Int
  crr : Nat
  CName : String
  deriving DecidableEq, Repr

/-- A frozen fund: release height, owner, optional candidate key, coin, value. -/
structure FrozenFund (Address Pubkey CoinSymbol : Type) where
  height : Nat
  address : Address
  candidateKey : Option Pubkey
  coin : CoinSymbol
  value : Int
  deriving DecidableEq, Repr

/-- The composite state the executor works on (`state.State`): account
balances and nonces, coin records, candidates with their stakes, frozen funds.
A missing coin or stake is `none` (a nil pointer in the source). -/
structure State (Address Pubkey CoinSymbol : Type) where
  balances : Address → CoinSymbol → Int
  nonces : Address → Nat
  coins : CoinSymbol → Option CoinModel
  candidates : Pubkey → Bool
  stakes : Pubkey → Address → CoinSymbol → Option Int
  frozenFunds : List (FrozenFund Address Pubkey CoinSymbol)

/-- The envelope fields of a `Transaction` that the executor reads. `sender` is
the address returned by `tx.Sender()` (its error is discarded in the source). -/
structure Transaction (Address CoinSymbol : Type) where
  Nonce : Nat
  GasPrice : Nat
  GasCoin : CoinSymbol
  sender : Address

/-- The payload of an unbond transaction. `Value` is a `*big.Int`, `none` when nil. -/
structure UnbondData (Pubkey CoinSymbol : Type) where
  PubKey : Pubkey
  Coin : CoinSymbol
  Value : Option Int

/-- Chain constants and pure helpers that live in packages outside the sources
at hand. Nothing is assumed about them. -/
structure Env (Address Pubkey CoinSymbol : Type) where
  /-- The symbol returned by `types.GetBaseCoin()`. -/
  baseCoin : CoinSymbol
  /-- The solvency floor used by `CheckReserveUnderflow`. -/
  minCoinReserve : Int
  /-- The function `formula.CalculateSaleAmount(volume, reserve, crr, baseOut)`. -/
  CalculateSaleAmount : Int → Int → Nat → Int → Int
  /-- The function `formula.CalculateSaleReturn(volume, reserve, crr, sold)`. -/
  CalculateSaleReturn : Int → Int → Nat → Int → Int
  /-- The function `formula.CalculatePurchaseReturn(volume, reserve, crr, deposit)`. -/
  CalculatePurchaseReturn : Int → Int → Nat → Int → Int
  /-- The constant `commissions.ConvertTx`. -/
  ConvertTx : Int
  /-- The constant `transaction.CommissionMultiplier`. -/
  CommissionMultiplier : Int
  /-- The method `tx.CommissionInBaseCoin()`. -/
  CommissionInBaseCoin : Transaction Address CoinSymbol → Int
  /-- The method `tx.Gas()`. -/
  Gas : Transaction Address CoinSymbol → Int
  /-- The text of a coin symbol (`CoinSymbol.String()`, also what `%s` prints). -/
  coinString : CoinSymbol → String
  /-- The text of a public key (`Pubkey.String()`). -/
  pubkeyString : Pubkey → String
  /-- The text of an address (`Address.String()`). -/
  addressString : Address → String
  /-- The hex text of the address bytes (`hex.EncodeToString(sender[:])`). -/
  addressHex : Address → String
  /-- The hex text of the one byte `TypeUnbond`. -/
  typeUnbondHex : String
  /-- The function `types.StrToCoinSymbol`. -/
  StrToCoinSymbol : String → CoinSymbol

/-- The block count between an unbond and the release of its frozen fund. -/
def unbondPeriod : Nat := 518400

/-- Addition of two `uint64` values. -/
def addUint64 (a b : Nat) : Nat := (a + b) % 2 ^ 64

section Stores

variable {Address Pubkey CoinSymbol : Type}
variable [DecidableEq Address] [DecidableEq Pubkey] [DecidableEq CoinSymbol]

/-- The test `symbol.IsBaseCoin()`: the symbol is the base coin. -/
def IsBaseCoin (env : Env Address Pubkey CoinSymbol) (symbol : CoinSymbol) : Bool :=
  decide (symbol = env.baseCoin)

/-- Modelled from the spec: `Coins.Exists`, absent from the sources. The base
coin is special-cased and always exists; another coin exists when it has a
record. -/
def State.CoinExists (env : Env Address Pubkey CoinSymbol)
    (s : State Address Pubkey CoinSymbol) (symbol : CoinSymbol) : Bool :=
  IsBaseCoin env symbol || (s.coins symbol).isSome

/-- Modelled from the spec: `Coins.GetCoin`, absent from the sources. It reads
the record of a symbol, `none` (nil) when there is none. -/
def State.GetCoin (s : State Address Pubkey CoinSymbol) (symbol : CoinSymbol) :
    Option CoinModel :=
  s.coins symbol

/-- Modelled from the spec: `Candidates.Exists`, absent from the sources. -/
def State.CandidateExists (s : State Address Pubkey CoinSymbol) (pubkey : Pubkey) : Bool :=
  s.candidates pubkey

/-- Modelled from the spec: `Candidates.GetStakeValueOfAddress`, absent from the
sources. It reads the stake of an address in a coin on a candidate, `none`
(nil) when the address has no such stake. -/
def State.GetStakeValueOfAddress (s : State Address Pubkey CoinSymbol)
    (pubkey : Pubkey) (address : Address) (coin : CoinSymbol) : Option Int :=
  s.stakes pubkey address coin

/-- Modelled from the spec: `Accounts.GetBalance`, absent from the sources. -/
def State.GetBalance (s : State Address Pubkey CoinSymbol)
    (address : Address) (coin : CoinSymbol) : Int :=
  s.balances address coin

/-- Modelled from the spec: `Coins.SubReserve`, absent from the sources. The
reserve of the coin goes down by `amount`; the base coin has no reserve and is
left alone ("if converted, also subtract reserve and volume from the gas
coin"). -/
def State.SubReserve (env : Env Address Pubkey CoinSymbol)
    (s : State Address Pubkey CoinSymbol) (symbol : CoinSymbol) (amount : Int) :
    State Address Pubkey CoinSymbol :=
  if IsBaseCoin env symbol then s
  else
    match s.coins symbol with
    | none => s
    | some m =>
      { s with coins := fun c =>
          if c = symbol then some { m with reserve := m.reserve - amount } else s.coins c }

/-- Modelled from the spec: `Coins.SubVolume`, absent from the sources. The
volume of the coin goes down by `amount`; the base coin is left alone. -/
def State.SubVolume (env : Env Address Pubkey CoinSymbol)
    (s : State Address Pubkey CoinSymbol) (symbol : CoinSymbol) (amount : Int) :
    State Address Pubkey CoinSymbol :=
  if IsBaseCoin env symbol then s
  else
    match s.coins symbol with
    | none => s
    | some m =>
      { s with coins := fun c =>
          if c = symbol then some { m with volume := m.volume - amount } else s.coins c }

/-- Modelled from the spec: `Accounts.SubBalance`, absent from the sources
("subtract commission from sender"). -/
def State.SubBalance (s : State Address Pubkey CoinSymbol)
    (address : Address) (coin : CoinSymbol) (amount : Int) :
    State Address Pubkey CoinSymbol :=
  { s with balances := fun a c =>
      if a = address ∧ c = coin then s.balances a c - amount else s.balances a c }

/-- Modelled from the spec: `Candidates.SubStake`, absent from the sources. The
stake goes down by `value` ("subtracts the stake"); a stake that reaches zero
is removed ("unbond of exactly the full stake removes the stake entry, not
merely zeroes it"). -/
def State.SubStake (s : State Address Pubkey CoinSymbol)
    (address : Address) (pubkey : Pubkey) (coin : CoinSymbol) (value : Int) :
    State Address Pubkey CoinSymbol :=
  match s.stakes pubkey address coin with
  | none => s
  | some v =>
    { s with stakes := fun p a c =>
        if p = pubkey ∧ a = address ∧ c = coin then
          (if v - value = 0 then none else some (v - value))
        else s.stakes p a c }

/-- Modelled from the spec: `FrozenFunds.AddFund`, absent from the sources. One
fund (release height, owner, candidate key, coin, value) is added. -/
def State.AddFund (s : State Address Pubkey CoinSymbol)
    (height : Nat) (address : Address) (pubkey : Pubkey) (coin : CoinSymbol) (value : Int) :
    State Address Pubkey CoinSymbol :=
  { s with frozenFunds := s.frozenFunds ++
      [{ height := height, address := address, candidateKey := some pubkey,
         coin := coin, value := value }] }

/-- Modelled from the spec: `Accounts.SetNonce`, absent from the sources. The
nonce of the address becomes the one given. -/
def State.SetNonce (s : State Address Pubkey CoinSymbol) (address : Address) (nonce : Nat) :
    State Address Pubkey CoinSymbol :=
  { s with nonces := fun a => if a = address then nonce else s.nonces a }

/-- Modelled from the spec: `CheckReserveUnderflow`, absent from the sources. It
rejects when the reserve of the coin, once `delta` is subtracted, falls below
the solvency floor; the info map holds `has_reserve` and `required`. -/
def CheckReserveUnderflow (env : Env Address Pubkey CoinSymbol) (coin : CoinModel)
    (delta : Int) : Option Response :=
  if coin.reserve - delta < env.minCoinReserve then
    some (Response.error Code.CoinReserveUnderflow
      ("coin " ++ coin.CName ++ " reserve is too small (" ++ toString coin.reserve
        ++ ", required at least " ++ toString (env.minCoinReserve + delta) ++ ")")
      [("has_reserve", toString coin.reserve),
       ("required", toString (env.minCoinReserve + delta))])
  else none

end Stores

/-! ## The unbond executor (`core/transaction/unbond.go`) -/

section Unbond

variable {Address Pubkey CoinSymbol : Type}
variable [DecidableEq Address] [DecidableEq Pubkey] [DecidableEq CoinSymbol]

/-- The method `UnbondData.BasicCheck`: `none` is the nil response (the
transaction passes), `some r` the error response of the first failing check. -/
def UnbondData.BasicCheck (env : Env Address Pubkey CoinSymbol)
    (data : UnbondData Pubkey CoinSymbol) (tx : Transaction Address CoinSymbol)
    (context : State Address Pubkey CoinSymbol) : Option Response :=
  match data.Value with
  | none => some (Response.error Code.DecodeError "Incorrect tx data" [])
  | some value =>
    if !context.CoinExists env data.Coin then
      some (Response.error Code.CoinNotExists
        ("Coin " ++ env.coinString data.Coin ++ " not exists")
        [("coin", env.coinString data.Coin)])
    else if !context.CandidateExists data.PubKey then
      some (Response.error Code.CandidateNotFound
        "Candidate with such public key not found"
        [("pub_key", env.pubkeyString data.PubKey)])
    else
      let sender := tx.sender
      match context.GetStakeValueOfAddress data.PubKey sender data.Coin with
      | none => some (Response.error Code.StakeNotFound "Stake of current user not found" [])
      | some stake =>
        if stake < value then
          some (Response.error Code.InsufficientStake
            "Insufficient stake for sender account"
            [("pub_key", env.pubkeyString data.PubKey)])
        else none

/-- The outcome of a call of `Run`: the response (`none` when the call ends in a
nil-pointer panic instead of returning), and the state and the reward pool the
call leaves behind. -/
structure RunResult (Address Pubkey CoinSymbol : Type) where
  response : Option Response
  state : State Address Pubkey CoinSymbol
  rewardPool : Int

/-- The fee part of `UnbondData.Run` (lines 106-130): the commission in the gas
coin, or the way the call ends before it is known (`none`: the gas coin is not
the base coin and has no record, so `coin` is nil and reading it panics). -/
def UnbondData.commission (env : Env Address Pubkey CoinSymbol)
    (tx : Transaction Address CoinSymbol) (context : State Address Pubkey CoinSymbol) :
    Except (Option Response) Int :=
  let commissionInBaseCoin := env.CommissionInBaseCoin tx
  if !IsBaseCoin env tx.GasCoin then
    match context.GetCoin tx.GasCoin with
    | none => Except.error none
    | some coin =>
      match CheckReserveUnderflow env coin commissionInBaseCoin with
      | some errResp => Except.error (some errResp)
      | none =>
        if coin.reserve < commissionInBaseCoin then
          Except.error (some (Response.error Code.CoinReserveNotSufficient
            ("Coin reserve balance is not sufficient for transaction. Has: "
              ++ toString coin.reserve ++ ", required " ++ toString commissionInBaseCoin)
            [("has_reserve", toString coin.reserve),
             ("commission", toString commissionInBaseCoin),
             ("gas_coin", coin.CName)]))
        else
          Except.ok (env.CalculateSaleAmount coin.volume coin.reserve coin.crr
            commissionInBaseCoin)
  else Except.ok commissionInBaseCoin

/-- The state changes of `UnbondData.Run` (lines 146-156), in source order. -/
def UnbondData.apply (env : Env Address Pubkey CoinSymbol)
    (data : UnbondData Pubkey CoinSymbol) (value : Int)
    (tx : Transaction Address CoinSymbol) (context : State Address Pubkey CoinSymbol)
    (commissionInBaseCoin commission : Int) (currentBlock : Nat) :
    State Address Pubkey CoinSymbol :=
  let sender := tx.sender
  let unbondAtBlock := addUint64 currentBlock unbondPeriod
  let c1 := context.SubReserve env tx.GasCoin commissionInBaseCoin
  let c2 := c1.SubVolume env tx.GasCoin commission
  let c3 := c2.SubBalance sender tx.GasCoin commission
  let c4 := c3.SubStake sender data.PubKey data.Coin value
  let c5 := c4.AddFund unbondAtBlock sender data.PubKey data.Coin value
  c5.SetNonce sender tx.Nonce

/-- The method `UnbondData.Run`. Where the state is changed `data.Value` is not
nil (`BasicCheck` has passed), so the default of `getD` is never taken. -/
def UnbondData.Run (env : Env Address Pubkey CoinSymbol)
    (data : UnbondData Pubkey CoinSymbol) (tx : Transaction Address CoinSymbol)
    (context : State Address Pubkey CoinSymbol) (isCheck : Bool) (rewardPool : Int)
    (currentBlock : Nat) : RunResult Address Pubkey CoinSymbol :=
  let sender := tx.sender
  match data.BasicCheck env tx context with
  | some response => { response := some response, state := context, rewardPool := rewardPool }
  | none =>
    let commissionInBaseCoin := env.CommissionInBaseCoin tx
    match UnbondData.commission env tx context with
    | Except.error r => { response := r, state := context, rewardPool := rewardPool }
    | Except.ok commission =>
      if context.GetBalance sender tx.GasCoin < commission then
        { response := some (Response.error Code.InsufficientFunds
            ("Insufficient funds for sender account: " ++ env.addressString sender
              ++ ". Wanted " ++ toString commission ++ " " ++ env.coinString tx.GasCoin)
            [("sender", env.addressString sender),
             ("needed_value", toString commission),
             ("gas_coin", env.coinString tx.GasCoin)]),
          state := context, rewardPool := rewardPool }
      else
        let tags := [("tx.type", env.typeUnbondHex), ("tx.from", env.addressHex sender)]
        let ok : Response :=
          { Code := Code.OK, Log := "", Info := [], GasUsed := env.Gas tx,
            GasWanted := env.Gas tx, Tags := tags }
        if !isCheck then
          { response := some ok,
            state := UnbondData.apply env data (data.Value.getD 0) tx context
              commissionInBaseCoin commission currentBlock,
            rewardPool := rewardPool + commissionInBaseCoin }
        else
          { response := some ok, state := context, rewardPool := rewardPool }

end Unbond

/-! ## The sell-all estimator (`api/v2/service/estimate_coin_sell_all.go`) -/

/-- The gRPC status codes the estimator uses. -/
inductive codes where
  | NotFound
  | InvalidArgument
  | FailedPrecondition
  deriving DecidableEq, Repr

/-- The error of a call: status code, message, and the info map handed to
`encodeError` as its key/value pairs (empty when none is attached). -/
structure StatusError where
  code : codes
  message : String
  info : List (String × String)
  deriving DecidableEq, Repr

/-- The message `pb.EstimateCoinSellAllRequest`. -/
structure EstimateCoinSellAllRequest where
  CoinToSell : String
  CoinToBuy : String
  ValueToSell : String
  GasPrice : Nat
  Height : Nat
  deriving DecidableEq, Repr

/-- The message `pb.EstimateCoinSellAllResponse`; the empty message has
`WillGet = ""`. -/
structure EstimateCoinSellAllResponse where
  WillGet : String
  deriving DecidableEq, Repr

/-- The API service, as far as the estimator reads it: `getStateForHeight`
gives the state at a height or an error text. -/
structure Service (Address Pubkey CoinSymbol : Type) where
  getStateForHeight : Nat → Except String (State Address Pubkey CoinSymbol)

/-- The outcome of a call of the estimator: the pair the call returns (`none`
when it ends in a nil-pointer panic: a coin record is read through a nil
pointer), and the service after the call. -/
structure EstimateResult (Address Pubkey CoinSymbol : Type) where
  reply : Option (EstimateCoinSellAllResponse × Option StatusError)
  service : Service Address Pubkey CoinSymbol

/-- The value of a decimal digit. -/
def digitValue (c : Char) : Nat := c.toNat - 48

/-- The call `big.NewInt(0).SetString(s, 10)` of the Go library: an optional
sign, then one or more decimal digits and nothing else; `none` when the text is
not of that form. -/
def setString10 (s : String) : Option Int :=
  let body : Bool × List Char :=
    match s.toList with
    | '-' :: r => (true, r)
    | '+' :: r => (false, r)
    | cs => (false, cs)
  if body.2.isEmpty || !body.2.all Char.isDigit then none
  else
    let n : Nat := body.2.foldl (fun acc c => 10 * acc + digitValue c) 0
    some (if body.1 then -(n : Int) else (n : Int))

/-- Modelled from the spec: `Service.createError` over `status.New`, absent from
the sources. The error carries the status code, the message and the info map. -/
def createError (c : codes) (message : String) (info : List (String × String)) :
    StatusError :=
  { code := c, message := message, info := info }

section Estimate

variable {Address Pubkey CoinSymbol : Type}
variable [DecidableEq Address] [DecidableEq Pubkey] [DecidableEq CoinSymbol]

/-- A failed call: the empty response and the error. -/
def EstimateResult.fail (s : Service Address Pubkey CoinSymbol) (e : StatusError) :
    EstimateResult Address Pubkey CoinSymbol :=
  { reply := some ({ WillGet := "" }, some e), service := s }

/-- The method `Service.EstimateCoinSellAll`. -/
def Service.EstimateCoinSellAll (env : Env Address Pubkey CoinSymbol)
    (s : Service Address Pubkey CoinSymbol) (req : EstimateCoinSellAllRequest) :
    EstimateResult Address Pubkey CoinSymbol :=
  match s.getStateForHeight req.Height with
  | Except.error err => EstimateResult.fail s (createError codes.NotFound err [])
  | Except.ok cState =>
    let _gasPrice := if req.GasPrice < 1 then 1 else req.GasPrice
    let coinToSell := env.StrToCoinSymbol req.CoinToSell
    let coinToBuy := env.StrToCoinSymbol req.CoinToBuy
    match setString10 req.ValueToSell with
    | none =>
      EstimateResult.fail s (createError codes.InvalidArgument "Value to sell not specified" [])
    | some valueToSell =>
      if coinToSell = coinToBuy then
        EstimateResult.fail s (createError codes.InvalidArgument
          "\x22From\x22 coin equals to \x22to\x22 coin"
          [("coin_to_sell", env.coinString coinToSell),
           ("coin_to_buy", env.coinString coinToBuy)])
      else if !cState.CoinExists env coinToSell then
        EstimateResult.fail s (createError codes.InvalidArgument "Coin to sell not exists"
          [("coin_to_sell", env.coinString coinToSell)])
      else if !cState.CoinExists env coinToBuy then
        EstimateResult.fail s (createError codes.InvalidArgument "Coin to buy not exists"
          [("coin_to_buy", env.coinString coinToBuy)])
      else
        let commissionInBaseCoin := env.ConvertTx * env.CommissionMultiplier
        let commission := commissionInBaseCoin
        if coinToSell = env.baseCoin then
          let coin := cState.GetCoin coinToBuy
          let valueToSell := valueToSell - commission
          if ¬ (0 < valueToSell) then
            EstimateResult.fail s (createError codes.InvalidArgument
              "Not enough coins to pay commission"
              [("value_to_sell", toString valueToSell),
               ("coin_to_sell", env.coinString coinToSell),
               ("commission", toString commission)])
          else
            match coin with
            | none => { reply := none, service := s }
            | some coin =>
              let result := env.CalculatePurchaseReturn coin.volume coin.reserve coin.crr
                valueToSell
              { reply := some ({ WillGet := toString result }, none), service := s }
        else if coinToBuy = env.baseCoin then
          match cState.GetCoin coinToSell with
          | none => { reply := none, service := s }
          | some coin =>
            let result := env.CalculateSaleReturn coin.volume coin.reserve coin.crr valueToSell
            let result := result - commission
            if ¬ (0 < result) then
              EstimateResult.fail s (createError codes.InvalidArgument
                "Not enough coins to pay commission"
                [("value_to_sell", toString valueToSell),
                 ("coin_to_sell", env.coinString coinToSell),
                 ("coin_reserve_to_sell", toString coin.reserve),
                 ("coin_crr_to_sell", toString coin.crr),
                 ("result", toString result),
                 ("commission", toString commission)])
            else
              { reply := some ({ WillGet := toString result }, none), service := s }
        else
          let coinTo := cState.GetCoin coinToBuy
          match cState.GetCoin coinToSell with
          | none => { reply := none, service := s }
          | some coinFrom =>
            let basecoinValue := env.CalculateSaleReturn coinFrom.volume coinFrom.reserve
              coinFrom.crr valueToSell
            let basecoinValue := basecoinValue - commission
            if ¬ (0 < basecoinValue) then
              EstimateResult.fail s (createError codes.FailedPrecondition
                "Not enough coins to pay commission"
                [("coin_to_sell", env.coinString coinToSell),
                 ("coin_to_buy", env.coinString coinToBuy),
                 ("coin_to_sell_crr", toString coinFrom.crr),
                 ("coin_to_sell_reserve", toString coinFrom.reserve),
                 ("result", toString basecoinValue),
                 ("commission", toString commission)])
            else
              match coinTo with
              | none => { reply := none, service := s }
              | some coinTo =>
                let result := env.CalculatePurchaseReturn coinTo.volume coinTo.reserve
                  coinTo.crr basecoinValue
                { reply := some ({ WillGet := toString result }, none), service := s }

end Estimate

/-! ## Coin conservation -/

section Conservation

variable {Address Pubkey CoinSymbol : Type}
variable [DecidableEq Address] [DecidableEq Pubkey] [DecidableEq CoinSymbol]
variable [Fintype Address] [Fintype Pubkey]

/-- The sum of the balances of all accounts in a coin. -/
def sumOfBalances (s : State Address Pubkey CoinSymbol) (C : CoinSymbol) : Int :=
  ∑ a : Address, s.balances a C

/-- The sum of all stakes in a coin, over every candidate and every address; an
absent stake counts for nothing. -/
def sumOfStakes (s : State Address Pubkey CoinSymbol) (C : CoinSymbol) : Int :=
  ∑ p : Pubkey, ∑ a : Address, (s.stakes p a C).getD 0

/-- The sum of the values of all frozen funds in a coin. -/
def sumOfFrozen (s : State Address Pubkey CoinSymbol) (C : CoinSymbol) : Int :=
  (s.frozenFunds.map (fun f => if f.coin = C then f.value else 0)).sum

/-- Conservation: for every coin with a record other than the base coin, the
balances, stakes and frozen funds in the coin add up to its volume. -/
def Conservation (env : Env Address Pubkey CoinSymbol)
    (s : State Address Pubkey CoinSymbol) : Prop :=
  ∀ C : CoinSymbol, C ≠ env.baseCoin → ∀ m ∈ s.coins C,
    sumOfBalances s C + sumOfStakes s C + sumOfFrozen s C = m.volume

end Conservation

/-! ## The spending projection of the unbond executor -/

/-- The outcome of a call of `TotalSpend`: the four values the call returns
(`none` when it panics instead of returning), and the state after the call. The
types `TotalSpends` and `Conversion` are declared outside the sources at hand. -/
structure TotalSpendResult (TotalSpends Conversion Address Pubkey CoinSymbol : Type) where
  returned : Option (TotalSpends × List Conversion × Option Int × Option Response)
  state : State Address Pubkey CoinSymbol

/-- The method `UnbondData.TotalSpend`: its whole body is `panic("implement me")`. -/
def UnbondData.TotalSpend {TotalSpends Conversion Address Pubkey CoinSymbol : Type}
    (_data : UnbondData Pubkey CoinSymbol) (_tx : Transaction Address CoinSymbol)
    (context : State Address Pubkey CoinSymbol) :
    TotalSpendResult TotalSpends Conversion Address Pubkey CoinSymbol :=
  { returned := none, state := context }

/-! ## Node start-up (`cmd/minter/cmd/node.go`) -/

/-- The fields of the node configuration `cfg` that `runNode` reads before the
application is built. `KeepLastStates` is a signed integer. -/
structure Config where
  KeepLastStates : Int
  ValidatorMode : Bool
  deriving DecidableEq, Repr

/-- The effects of `runNode` that are told apart here, in the order they happen. -/
inductive NodeEvent where
  | EnsureDir (path : String)
  | NewMinterBlockchain
  | Later (what : String)
  deriving DecidableEq, Repr

/-- How a call ends: it returns an error, it panics, or it goes on as the code
after it does. -/
inductive Ending where
  | returned (err : String)
  | panicked (message : String)
  | runsOn
  deriving DecidableEq, Repr

/-- The outcome of `runNode`: the effects so far and the ending. -/
structure RunNodeResult where
  events : List NodeEvent
  ending : Ending
  deriving DecidableEq, Repr

/-- The function `runNode`, lines 38-53: both directories are ensured, then the
configuration is checked, then the application is built. `home` is
`utils.GetMinterHome()`, `ensureDir` is `common.EnsureDir` (`none`: no error),
and `after` is everything the function does from line 54 on (logger, the repair
of the blocks time delta, the consensus node, the API and CLI servers). -/
def runNode (cfg : Config) (home : String) (ensureDir : String → Option String)
    (after : RunNodeResult) : RunNodeResult :=
  match ensureDir (home ++ "/config") with
  | some err =>
    { events := [NodeEvent.EnsureDir (home ++ "/config")], ending := Ending.returned err }
  | none =>
    match ensureDir (home ++ "/tmdata") with
    | some err =>
      { events := [NodeEvent.EnsureDir (home ++ "/config"),
                   NodeEvent.EnsureDir (home ++ "/tmdata")],
        ending := Ending.returned err }
    | none =>
      if cfg.KeepLastStates < 1 then
        { events := [NodeEvent.EnsureDir (home ++ "/config"),
                     NodeEvent.EnsureDir (home ++ "/tmdata")],
          ending := Ending.panicked "keep_last_states field should be greater than 0" }
      else
        { events := [NodeEvent.EnsureDir (home ++ "/config"),
                     NodeEvent.EnsureDir (home ++ "/tmdata"),
                     NodeEvent.NewMinterBlockchain] ++ after.events,
          ending := after.ending }

/-- The conversion `uint64(x)` of an `int64`. -/
def uint64OfInt64 (x : Int) : Nat := (x % 2 ^ 64).toNat

/-- The conversion `int64(n)` of a `uint64`. -/
def int64OfUint64 (n : Nat) : Int :=
  if n % 2 ^ 64 < 2 ^ 63 then ((n % 2 ^ 64 : Nat) : Int) else ((n % 2 ^ 64 : Nat) : Int) - 2 ^ 64

/-- Subtraction of two `uint64` values: it wraps around below zero. -/
def subUint64 (a b : Nat) : Nat := (a % 2 ^ 64 + (2 ^ 64 - b % 2 ^ 64)) % 2 ^ 64

/-- What `updateBlocksTimeDelta` reads from the block store and the application.
`Time` is the type of a header time. -/
structure BlockStoreEnv (Time : Type) where
  /-- The error of `tmNode.DefaultDBProvider`, `none` when the database opens. -/
  dbError : Option String
  /-- The value of `blockStore.Height()`, an `int64`. -/
  Height : Int
  /-- The header time of `blockStore.LoadBlockMeta(h)`, `none` when the result is nil. -/
  LoadBlockMeta : Int → Option Time
  /-- The call `app.GetBlocksTimeDelta(height, count)`. -/
  GetBlocksTimeDelta : Nat → Nat → Except String Int
  /-- The value `int(b.Sub(a).Seconds())` of the Go library for header times
  `b` and `a`: the whole seconds from `a` to `b`. -/
  wholeSeconds : Time → Time → Int

/-- The outcome of `updateBlocksTimeDelta`: the heights given to `LoadBlockMeta`
in order, the arguments of `SetBlocksTimeDelta` if it was called, whether the
call panicked, and whether the database was closed. -/
structure UpdateResult where
  loaded : List Int
  setDelta : Option (Nat × Int)
  panicked : Bool
  closed : Bool
  deriving DecidableEq, Repr

/-- The function `updateBlocksTimeDelta`. -/
def updateBlocksTimeDelta {Time : Type} (w : BlockStoreEnv Time) : UpdateResult :=
  match w.dbError with
  | some _ => { loaded := [], setDelta := none, panicked := true, closed := false }
  | none =>
    let height := uint64OfInt64 w.Height
    let count := 3
    match w.GetBlocksTimeDelta height count with
    | Except.ok _ => { loaded := [], setDelta := none, panicked := false, closed := true }
    | Except.error _ =>
      if 20 ≤ height then
        let a := int64OfUint64 (subUint64 (subUint64 height count) 1)
        let b := int64OfUint64 (subUint64 height 1)
        match w.LoadBlockMeta a, w.LoadBlockMeta b with
        | some timeA, some timeB =>
          { loaded := [a, b], setDelta := some (height, w.wholeSeconds timeB timeA),
            panicked := false, closed := true }
        | _, _ => { loaded := [a, b], setDelta := none, panicked := true, closed := false }
      else { loaded := [], setDelta := none, panicked := false, closed := true }

/-! ## A small concrete chain, used to exercise the theorems

Two addresses, two candidate keys, three coins: `0` the base coin, `1` the coin
XYZ and `2` the coin ABC, both with volume and reserve of a linear curve. -/

/-- The text of the example coins. -/
def exCoinString (c : Fin 3) : String :=
  if c = 0 then "BASE" else if c = 1 then "XYZ" else "ABC"

/-- The example chain constants: linear bonding curves, a commission of ten base
units per unit of gas price. -/
def exEnv : Env (Fin 2) (Fin 2) (Fin 3) where
  baseCoin := 0
  minCoinReserve := 10
  CalculateSaleAmount := fun volume reserve _ baseOut => baseOut * volume / reserve
  CalculateSaleReturn := fun volume reserve _ sold => sold * reserve / volume
  CalculatePurchaseReturn := fun volume reserve _ deposit => deposit * volume / reserve
  ConvertTx := 100
  CommissionMultiplier := 1
  CommissionInBaseCoin := fun tx => 10 * (tx.GasPrice : Int)
  Gas := fun _ => 100
  coinString := exCoinString
  pubkeyString := fun p => if p = 0 then "Mp00" else "Mp01"
  addressString := fun a => if a = 0 then "Mx00" else "Mx01"
  addressHex := fun a => if a = 0 then "00" else "01"
  typeUnbondHex := "08"
  StrToCoinSymbol := fun t => if t = "BASE" then 0 else if t = "XYZ" then 1 else 2

/-- The example state: address `0` holds 100 base units and 50 XYZ and has 500
XYZ staked on candidate `0`; address `1` holds 450 XYZ and 2000 ABC. -/
def exState : State (Fin 2) (Fin 2) (Fin 3) where
  balances := fun a c =>
    if a = 0 then (if c = 0 then 100 else if c = 1 then 50 else 0)
    else (if c = 1 then 450 else if c = 2 then 2000 else 0)
  nonces := fun _ => 0
  coins := fun c =>
    if c = 1 then some { volume := 1000, reserve := 1000, crr := 100, CName := "XYZ" }
    else if c = 2 then some { volume := 2000, reserve := 1000, crr := 100, CName := "ABC" }
    else none
  candidates := fun p => decide (p = 0)
  stakes := fun p a c => if p = 0 ∧ a = 0 ∧ c = 1 then some 500 else none
  frozenFunds := []

/-- The example transaction: nonce 1, gas price 1, fee paid in XYZ by address `0`. -/
def exTx : Transaction (Fin 2) (Fin 3) :=
  { Nonce := 1, GasPrice := 1, GasCoin := 1, sender := 0 }

/-- The example payload: unbond 200 XYZ from candidate `0`. -/
def exData : UnbondData (Fin 2) (Fin 3) :=
  { PubKey := 0, Coin := 1, Value := some 200 }

/-- The example service: the state is known at heights up to 10 only. -/
def exService : Service (Fin 2) (Fin 2) (Fin 3) where
  getStateForHeight := fun h => if h ≤ 10 then Except.ok exState else Except.error "no state"

/-- The example request: sell 300 XYZ for ABC, neither being the base coin. -/
def exRequest : EstimateCoinSellAllRequest :=
  { CoinToSell := "XYZ", CoinToBuy := "ABC", ValueToSell := "300", GasPrice := 1, Height := 1 }

/-- The example same-coin request: sell 100 XYZ for XYZ, gas price 0. -/
def exSameCoinRequest : EstimateCoinSellAllRequest :=
  { CoinToSell := "XYZ", CoinToBuy := "XYZ", ValueToSell := "100", GasPrice := 0, Height := 1 }

/-- The example boundary request: sell 100 XYZ for ABC; the sale returns 100
base units, exactly the commission. -/
def exBoundaryRequest : EstimateCoinSellAllRequest :=
  { CoinToSell := "XYZ", CoinToBuy := "ABC", ValueToSell := "100", GasPrice := 1, Height := 1 }

/-- The example configuration with `keep_last_states = 0`. -/
def exConfig : Config := { KeepLastStates := 0, ValidatorMode := false }

/-- The example rest of `runNode`: the consensus node is started and the call
runs on. -/
def exAfter : RunNodeResult :=
  { events := [NodeEvent.Later "startTendermintNode"], ending := Ending.runsOn }

/-- The example block store: height 25, every block there with header time
(in seconds) five times its height, and no stored delta. -/
def exBlockStore : BlockStoreEnv Int where
  dbError := none
  Height := 25
  LoadBlockMeta := fun h => if 1 ≤ h ∧ h ≤ 25 then some (5 * h) else none
  GetBlocksTimeDelta := fun _ _ => Except.error "no delta"
  wholeSeconds := fun b a => b - a

/-! ## Theorems -/

section Theorems

variable {Address Pubkey CoinSymbol : Type}
variable [DecidableEq Address] [DecidableEq Pubkey] [DecidableEq CoinSymbol]

/-! ### What the checks of the executor mean -/

/-- A response of `CheckReserveUnderflow` has the code `CoinReserveUnderflow`. -/
theorem CheckReserveUnderflow_code (env : Env Address Pubkey CoinSymbol) (coin : CoinModel)
    (delta : Int) (r : Response) (h : CheckReserveUnderflow env coin delta = some r) :
    r.Code = Code.CoinReserveUnderflow := by
  unfold CheckReserveUnderflow at h
  split at h
  · cases h; rfl
  · cases h

/-- The nil response of `BasicCheck`: the value is present, coin and candidate
exist, the sender has a stake and it covers the value. -/
theorem BasicCheck_none_iff (env : Env Address Pubkey CoinSymbol)
    (data : UnbondData Pubkey CoinSymbol) (tx : Transaction Address CoinSymbol)
    (context : State Address Pubkey CoinSymbol) :
    data.BasicCheck env tx context = none ↔
      ∃ value stake, data.Value = some value ∧ context.CoinExists env data.Coin = true ∧
        context.CandidateExists data.PubKey = true ∧
        context.GetStakeValueOfAddress data.PubKey tx.sender data.Coin = some stake ∧
        value ≤ stake := by
  unfold UnbondData.BasicCheck
  cases hv : data.Value with
  | none => simp
  | some value =>
    cases hc : context.CoinExists env data.Coin with
    | false => simp
    | true =>
      cases hp : context.CandidateExists data.PubKey with
      | false => simp
      | true =>
        cases hs : context.GetStakeValueOfAddress data.PubKey tx.sender data.Coin with
        | none => simp [hs]
        | some stake =>
          by_cases hlt : stake < value
          · simp [hs, hlt]
          · simp [hs, hlt, not_lt.mp hlt]

/-- The code of the response of `BasicCheck`, check by check. -/
theorem BasicCheck_code (env : Env Address Pubkey CoinSymbol)
    (data : UnbondData Pubkey CoinSymbol) (tx : Transaction Address CoinSymbol)
    (context : State Address Pubkey CoinSymbol) :
    (data.BasicCheck env tx context).map Response.Code =
      match data.Value with
      | none => some Code.DecodeError
      | some value =>
        if context.CoinExists env data.Coin = false then some Code.CoinNotExists
        else if context.CandidateExists data.PubKey = false then some Code.CandidateNotFound
        else
          match context.GetStakeValueOfAddress data.PubKey tx.sender data.Coin with
          | none => some Code.StakeNotFound
          | some stake => if stake < value then some Code.InsufficientStake else none := by
  unfold UnbondData.BasicCheck
  cases hv : data.Value with
  | none => simp [Response.error]
  | some value =>
    cases hc : context.CoinExists env data.Coin with
    | false => simp [Response.error]
    | true =>
      cases hp : context.CandidateExists data.PubKey with
      | false => simp [Response.error]
      | true =>
        cases hs : context.GetStakeValueOfAddress data.PubKey tx.sender data.Coin with
        | none => simp [hs, Response.error]
        | some stake =>
          by_cases hlt : stake < value
          · simp [hs, hlt, Response.error]
          · simp [hs, hlt]

/-- A response of `BasicCheck` is never `OK`. -/
theorem BasicCheck_code_ne_OK (env : Env Address Pubkey CoinSymbol)
    (data : UnbondData Pubkey CoinSymbol) (tx : Transaction Address CoinSymbol)
    (context : State Address Pubkey CoinSymbol) (r : Response)
    (h : data.BasicCheck env tx context = some r) : r.Code ≠ Code.OK := by
  have hc := BasicCheck_code env data tx context
  rw [h] at hc
  simp only [Option.map_some'] at hc
  intro hok
  rw [hok] at hc
  revert hc
  cases data.Value with
  | none => simp
  | some value =>
    simp only
    split
    · simp
    · split
      · simp
      · cases context.GetStakeValueOfAddress data.PubKey tx.sender data.Coin with
        | none => simp
        | some stake =>
          simp only
          split <;> simp

/-- The fee part succeeds with commission `c` exactly when the gas coin is the
base coin and `c` is the commission in base coin, or the gas coin has a record
that passes both reserve checks and `c` is the sale amount. -/
theorem commission_ok_iff (env : Env Address Pubkey CoinSymbol)
    (tx : Transaction Address CoinSymbol) (context : State Address Pubkey CoinSymbol)
    (c : Int) :
    UnbondData.commission env tx context = Except.ok c ↔
      (tx.GasCoin = env.baseCoin ∧ c = env.CommissionInBaseCoin tx) ∨
      (tx.GasCoin ≠ env.baseCoin ∧ ∃ m, context.coins tx.GasCoin = some m ∧
        CheckReserveUnderflow env m (env.CommissionInBaseCoin tx) = none ∧
        env.CommissionInBaseCoin tx ≤ m.reserve ∧
        c = env.CalculateSaleAmount m.volume m.reserve m.crr (env.CommissionInBaseCoin tx)) := by
  unfold UnbondData.commission IsBaseCoin State.GetCoin
  by_cases hb : tx.GasCoin = env.baseCoin
  · simp [hb, eq_comm]
  · cases hm : context.coins tx.GasCoin with
    | none => simp [hb]
    | some m =>
      cases hu : CheckReserveUnderflow env m (env.CommissionInBaseCoin tx) with
      | some r => simp [hb, hu]
      | none =>
        by_cases hr : m.reserve < env.CommissionInBaseCoin tx
        · simp [hb, hu, hr]
        · simp [hb, hu, hr, not_lt.mp hr, eq_comm]

/-- An error response of the fee part is never `OK`. -/
theorem commission_error_code_ne_OK (env : Env Address Pubkey CoinSymbol)
    (tx : Transaction Address CoinSymbol) (context : State Address Pubkey CoinSymbol)
    (r : Response) (h : UnbondData.commission env tx context = Except.error (some r)) :
    r.Code ≠ Code.OK := by
  unfold UnbondData.commission IsBaseCoin State.GetCoin at h
  by_cases hb : tx.GasCoin = env.baseCoin
  · simp [hb] at h
  · cases hm : context.coins tx.GasCoin with
    | none => simp [hb, hm] at h
    | some m =>
      cases hu : CheckReserveUnderflow env m (env.CommissionInBaseCoin tx) with
      | some e =>
        simp only [hb, hm, hu, decide_False, Bool.not_false, if_true] at h
        cases h
        rw [CheckReserveUnderflow_code env m _ _ hu]
        decide
      | none =>
        by_cases hr : m.reserve < env.CommissionInBaseCoin tx
        · simp only [hb, hm, hu, hr, decide_False, Bool.not_false, if_true] at h
          cases h
          simp [Response.error]
        · simp [hb, hm, hu, hr] at h

/-- What an accepted call of `Run` did: the value is present, `BasicCheck`
passed, the fee part gave a commission the balance covers, and the state and
the reward pool are the changed ones unless the call was a check. -/
theorem Run_accepted_inv (env : Env Address Pubkey CoinSymbol)
    (data : UnbondData Pubkey CoinSymbol) (tx : Transaction Address CoinSymbol)
    (context : State Address Pubkey CoinSymbol) (isCheck : Bool) (rewardPool : Int)
    (currentBlock : Nat)
    (h : (data.Run env tx context isCheck rewardPool currentBlock).response.map Response.Code
      = some Code.OK) :
    ∃ value stake c, data.Value = some value ∧
      context.stakes data.PubKey tx.sender data.Coin = some stake ∧ value ≤ stake ∧
      UnbondData.commission env tx context = Except.ok c ∧
      c ≤ context.balances tx.sender tx.GasCoin ∧
      (data.Run env tx context isCheck rewardPool currentBlock).state =
        (if isCheck then context
         else UnbondData.apply env data value tx context (env.CommissionInBaseCoin tx) c
           currentBlock) ∧
      (data.Run env tx context isCheck rewardPool currentBlock).rewardPool =
        (if isCheck then rewardPool else rewardPool + env.CommissionInBaseCoin tx) := by
  unfold UnbondData.Run at h ⊢
  cases hb : data.BasicCheck env tx context with
  | some r =>
    rw [hb] at h
    simp only [Option.map_some', Option.some.injEq] at h
    exact absurd h (BasicCheck_code_ne_OK env data tx context r hb)
  | none =>
    obtain ⟨value, stake, hv, _, _, hs, hle⟩ := (BasicCheck_none_iff env data tx context).mp hb
    rw [hb] at h
    cases hc : UnbondData.commission env tx context with
    | error r =>
      rw [hc] at h
      cases r with
      | none => simp at h
      | some r =>
        simp only [Option.map_some', Option.some.injEq] at h
        exact absurd h (commission_error_code_ne_OK env tx context r hc)
    | ok c =>
      rw [hc] at h
      by_cases hlt : context.GetBalance tx.sender tx.GasCoin < c
      · simp [hlt, Response.error] at h
      · refine ⟨value, stake, c, hv, hs, hle, rfl, not_lt.mp hlt, ?_, ?_⟩
        · cases isCheck <;> simp [hlt, hv]
        · cases isCheck <;> simp [hlt]

/-- A call of `Run` that does not answer `OK` (an error response, or no response
at all) returns the state and the reward pool it was given. -/
theorem Run_rejected_frame (env : Env Address Pubkey CoinSymbol)
    (data : UnbondData Pubkey CoinSymbol) (tx : Transaction Address CoinSymbol)
    (context : State Address Pubkey CoinSymbol) (isCheck : Bool) (rewardPool : Int)
    (currentBlock : Nat)
    (h : (data.Run env tx context isCheck rewardPool currentBlock).response.map Response.Code
      ≠ some Code.OK) :
    (data.Run env tx context isCheck rewardPool currentBlock).state = context ∧
    (data.Run env tx context isCheck rewardPool currentBlock).rewardPool = rewardPool := by
  unfold UnbondData.Run at h ⊢
  cases hb : data.BasicCheck env tx context with
  | some r => exact ⟨rfl, rfl⟩
  | none =>
    rw [hb] at h
    cases hc : UnbondData.commission env tx context with
    | error r => exact ⟨rfl, rfl⟩
    | ok c =>
      rw [hc] at h
      by_cases hlt : context.GetBalance tx.sender tx.GasCoin < c
      · simp [hlt]
      · exfalso
        apply h
        cases isCheck <;> simp [hlt]

/-! ### What the store operations leave alone -/

/-- Subtracting from a reserve leaves the balances alone. -/
@[simp]
theorem SubReserve_balances (env : Env Address Pubkey CoinSymbol)
    (s : State Address Pubkey CoinSymbol) (symbol : CoinSymbol) (amount : Int) :
    (s.SubReserve env symbol amount).balances = s.balances := by
  unfold State.SubReserve
  split
  · rfl
  · split <;> rfl

/-- Subtracting from a reserve leaves the nonces alone. -/
@[simp]
theorem SubReserve_nonces (env : Env Address Pubkey CoinSymbol)
    (s : State Address Pubkey CoinSymbol) (symbol : CoinSymbol) (amount : Int) :
    (s.SubReserve env symbol amount).nonces = s.nonces := by
  unfold State.SubReserve
  split
  · rfl
  · split <;> rfl

/-- Subtracting from a reserve leaves the candidates alone. -/
@[simp]
theorem SubReserve_candidates (env : Env Address Pubkey CoinSymbol)
    (s : State Address Pubkey CoinSymbol) (symbol : CoinSymbol) (amount : Int) :
    (s.SubReserve env symbol amount).candidates = s.candidates := by
  unfold State.SubReserve
  split
  · rfl
  · split <;> rfl

/-- Subtracting from a reserve leaves the stakes alone. -/
@[simp]
theorem SubReserve_stakes (env : Env Address Pubkey CoinSymbol)
    (s : State Address Pubkey CoinSymbol) (symbol : CoinSymbol) (amount : Int) :
    (s.SubReserve env symbol amount).stakes = s.stakes := by
  unfold State.SubReserve
  split
  · rfl
  · split <;> rfl

/-- Subtracting from a reserve leaves the frozen funds alone. -/
@[simp]
theorem SubReserve_frozenFunds (env : Env Address Pubkey CoinSymbol)
    (s : State Address Pubkey CoinSymbol) (symbol : CoinSymbol) (amount : Int) :
    (s.SubReserve env symbol amount).frozenFunds = s.frozenFunds := by
  unfold State.SubReserve
  split
  · rfl
  · split <;> rfl

/-- Subtracting from a volume leaves the balances alone. -/
@[simp]
theorem SubVolume_balances (env : Env Address Pubkey CoinSymbol)
    (s : State Address Pubkey CoinSymbol) (symbol : CoinSymbol) (amount : Int) :
    (s.SubVolume env symbol amount).balances = s.balances := by
  unfold State.SubVolume
  split
  · rfl
  · split <;> rfl

/-- Subtracting from a volume leaves the nonces alone. -/
@[simp]
theorem SubVolume_nonces (env : Env Address Pubkey CoinSymbol)
    (s : State Address Pubkey CoinSymbol) (symbol : CoinSymbol) (amount : Int) :
    (s.SubVolume env symbol amount).nonces = s.nonces := by
  unfold State.SubVolume
  split
  · rfl
  · split <;> rfl

/-- Subtracting from a volume leaves the candidates alone. -/
@[simp]
theorem SubVolume_candidates (env : Env Address Pubkey CoinSymbol)
    (s : State Address Pubkey CoinSymbol) (symbol : CoinSymbol) (amount : Int) :
    (s.SubVolume env symbol amount).candidates = s.candidates := by
  unfold State.SubVolume
  split
  · rfl
  · split <;> rfl

/-- Subtracting from a volume leaves the stakes alone. -/
@[simp]
theorem SubVolume_stakes (env : Env Address Pubkey CoinSymbol)
    (s : State Address Pubkey CoinSymbol) (symbol : CoinSymbol) (amount : Int) :
    (s.SubVolume env symbol amount).stakes = s.stakes := by
  unfold State.SubVolume
  split
  · rfl
  · split <;> rfl

/-- Subtracting from a volume leaves the frozen funds alone. -/
@[simp]
theorem SubVolume_frozenFunds (env : Env Address Pubkey CoinSymbol)
    (s : State Address Pubkey CoinSymbol) (symbol : CoinSymbol) (amount : Int) :
    (s.SubVolume env symbol amount).frozenFunds = s.frozenFunds := by
  unfold State.SubVolume
  split
  · rfl
  · split <;> rfl

/-- Subtracting from a stake leaves the balances alone. -/
@[simp]
theorem SubStake_balances (s : State Address Pubkey CoinSymbol) (address : Address)
    (pubkey : Pubkey) (coin : CoinSymbol) (value : Int) :
    (s.SubStake address pubkey coin value).balances = s.balances := by
  unfold State.SubStake
  split <;> rfl

/-- Subtracting from a stake leaves the nonces alone. -/
@[simp]
theorem SubStake_nonces (s : State Address Pubkey CoinSymbol) (address : Address)
    (pubkey : Pubkey) (coin : CoinSymbol) (value : Int) :
    (s.SubStake address pubkey coin value).nonces = s.nonces := by
  unfold State.SubStake
  split <;> rfl

/-- Subtracting from a stake leaves the coin records alone. -/
@[simp]
theorem SubStake_coins (s : State Address Pubkey CoinSymbol) (address : Address)
    (pubkey : Pubkey) (coin : CoinSymbol) (value : Int) :
    (s.SubStake address pubkey coin value).coins = s.coins := by
  unfold State.SubStake
  split <;> rfl

/-- Subtracting from a stake leaves the candidates alone. -/
@[simp]
theorem SubStake_candidates (s : State Address Pubkey CoinSymbol) (address : Address)
    (pubkey : Pubkey) (coin : CoinSymbol) (value : Int) :
    (s.SubStake address pubkey coin value).candidates = s.candidates := by
  unfold State.SubStake
  split <;> rfl

/-- Subtracting from a stake leaves the frozen funds alone. -/
@[simp]
theorem SubStake_frozenFunds (s : State Address Pubkey CoinSymbol) (address : Address)
    (pubkey : Pubkey) (coin : CoinSymbol) (value : Int) :
    (s.SubStake address pubkey coin value).frozenFunds = s.frozenFunds := by
  unfold State.SubStake
  split <;> rfl

/-- The stakes after `SubStake` on a stake that is there. -/
theorem SubStake_stakes (s : State Address Pubkey CoinSymbol) (address : Address)
    (pubkey : Pubkey) (coin : CoinSymbol) (value stake : Int)
    (h : s.stakes pubkey address coin = some stake) :
    (s.SubStake address pubkey coin value).stakes = fun p a c =>
      if p = pubkey ∧ a = address ∧ c = coin then
        (if stake - value = 0 then none else some (stake - value))
      else s.stakes p a c := by
  unfold State.SubStake
  rw [h]

/-- The coin records after `SubReserve` on a coin other than the base coin that
has a record. -/
theorem SubReserve_coins (env : Env Address Pubkey CoinSymbol)
    (s : State Address Pubkey CoinSymbol) (symbol : CoinSymbol) (amount : Int) (m : CoinModel)
    (hb : symbol ≠ env.baseCoin) (h : s.coins symbol = some m) :
    (s.SubReserve env symbol amount).coins = fun c =>
      if c = symbol then some { m with reserve := m.reserve - amount } else s.coins c := by
  unfold State.SubReserve IsBaseCoin
  simp [hb, h]

/-- The coin records after `SubVolume` on a coin other than the base coin that
has a record. -/
theorem SubVolume_coins (env : Env Address Pubkey CoinSymbol)
    (s : State Address Pubkey CoinSymbol) (symbol : CoinSymbol) (amount : Int) (m : CoinModel)
    (hb : symbol ≠ env.baseCoin) (h : s.coins symbol = some m) :
    (s.SubVolume env symbol amount).coins = fun c =>
      if c = symbol then some { m with volume := m.volume - amount } else s.coins c := by
  unfold State.SubVolume IsBaseCoin
  simp [hb, h]

/-! ### What the state changes of an accepted unbond are -/

/-- The balances after the changes: the commission leaves the sender. -/
theorem apply_balances (env : Env Address Pubkey CoinSymbol)
    (data : UnbondData Pubkey CoinSymbol) (value : Int) (tx : Transaction Address CoinSymbol)
    (s : State Address Pubkey CoinSymbol) (cib c : Int) (h : Nat) :
    (UnbondData.apply env data value tx s cib c h).balances = fun a coin =>
      if a = tx.sender ∧ coin = tx.GasCoin then s.balances a coin - c else s.balances a coin := by
  simp [UnbondData.apply, State.SetNonce, State.AddFund, State.SubBalance]

/-- The nonces after the changes: the sender has the nonce of the transaction. -/
theorem apply_nonces (env : Env Address Pubkey CoinSymbol)
    (data : UnbondData Pubkey CoinSymbol) (value : Int) (tx : Transaction Address CoinSymbol)
    (s : State Address Pubkey CoinSymbol) (cib c : Int) (h : Nat) :
    (UnbondData.apply env data value tx s cib c h).nonces = fun a =>
      if a = tx.sender then tx.Nonce else s.nonces a := by
  simp [UnbondData.apply, State.SetNonce, State.AddFund, State.SubBalance]

/-- The candidates after the changes: as before. -/
theorem apply_candidates (env : Env Address Pubkey CoinSymbol)
    (data : UnbondData Pubkey CoinSymbol) (value : Int) (tx : Transaction Address CoinSymbol)
    (s : State Address Pubkey CoinSymbol) (cib c : Int) (h : Nat) :
    (UnbondData.apply env data value tx s cib c h).candidates = s.candidates := by
  simp [UnbondData.apply, State.SetNonce, State.AddFund, State.SubBalance]

/-- The frozen funds after the changes: one more, for the unbonded value. -/
theorem apply_frozenFunds (env : Env Address Pubkey CoinSymbol)
    (data : UnbondData Pubkey CoinSymbol) (value : Int) (tx : Transaction Address CoinSymbol)
    (s : State Address Pubkey CoinSymbol) (cib c : Int) (h : Nat) :
    (UnbondData.apply env data value tx s cib c h).frozenFunds = s.frozenFunds ++
      [{ height := addUint64 h unbondPeriod, address := tx.sender,
         candidateKey := some data.PubKey, coin := data.Coin, value := value }] := by
  simp [UnbondData.apply, State.SetNonce, State.AddFund, State.SubBalance]

/-- The stakes after the changes, when the sender had the stake. -/
theorem apply_stakes (env : Env Address Pubkey CoinSymbol)
    (data : UnbondData Pubkey CoinSymbol) (value : Int) (tx : Transaction Address CoinSymbol)
    (s : State Address Pubkey CoinSymbol) (cib c : Int) (h : Nat) (stake : Int)
    (hs : s.stakes data.PubKey tx.sender data.Coin = some stake) :
    (UnbondData.apply env data value tx s cib c h).stakes = fun p a coin =>
      if p = data.PubKey ∧ a = tx.sender ∧ coin = data.Coin then
        (if stake - value = 0 then none else some (stake - value))
      else s.stakes p a coin := by
  simp only [UnbondData.apply, State.SetNonce, State.AddFund]
  rw [SubStake_stakes _ _ _ _ _ stake]
  · simp [State.SubBalance]
  · simpa [State.SubBalance] using hs

/-- The coin records after the changes, the fee being paid in the base coin:
as before. -/
theorem apply_coins_base (env : Env Address Pubkey CoinSymbol)
    (data : UnbondData Pubkey CoinSymbol) (value : Int) (tx : Transaction Address CoinSymbol)
    (s : State Address Pubkey CoinSymbol) (cib c : Int) (h : Nat)
    (hb : tx.GasCoin = env.baseCoin) :
    (UnbondData.apply env data value tx s cib c h).coins = s.coins := by
  simp [UnbondData.apply, State.SetNonce, State.AddFund, State.SubBalance, State.SubReserve,
    State.SubVolume, IsBaseCoin, hb]

/-- The coin records after the changes, the fee being paid in another coin:
its reserve and its volume went down. -/
theorem apply_coins_gas (env : Env Address Pubkey CoinSymbol)
    (data : UnbondData Pubkey CoinSymbol) (value : Int) (tx : Transaction Address CoinSymbol)
    (s : State Address Pubkey CoinSymbol) (cib c : Int) (h : Nat) (m : CoinModel)
    (hb : tx.GasCoin ≠ env.baseCoin) (hm : s.coins tx.GasCoin = some m) :
    (UnbondData.apply env data value tx s cib c h).coins = fun coin =>
      if coin = tx.GasCoin then
        some { volume := m.volume - c, reserve := m.reserve - cib, crr := m.crr,
               CName := m.CName }
      else s.coins coin := by
  simp only [UnbondData.apply, State.SetNonce, State.AddFund, State.SubBalance, SubStake_coins]
  rw [SubVolume_coins env _ _ _ { m with reserve := m.reserve - cib } hb]
  · rw [SubReserve_coins env _ _ _ m hb hm]
    funext coin
    by_cases hc : coin = tx.GasCoin <;> simp [hc]
  · rw [SubReserve_coins env _ _ _ m hb hm]
    simp

/-! ### The unbond executor: frame, effect and checks -/

/-- C1: a call of `Run` with `isCheck = true` leaves the state and the reward
pool exactly as they were, whatever the response. -/
theorem Run_check_leaves_state (env : Env Address Pubkey CoinSymbol)
    (data : UnbondData Pubkey CoinSymbol) (tx : Transaction Address CoinSymbol)
    (context : State Address Pubkey CoinSymbol) (rewardPool : Int) (currentBlock : Nat) :
    (data.Run env tx context true rewardPool currentBlock).state = context ∧
    (data.Run env tx context true rewardPool currentBlock).rewardPool = rewardPool := by
  unfold UnbondData.Run
  cases data.BasicCheck env tx context with
  | some r => exact ⟨rfl, rfl⟩
  | none =>
    cases UnbondData.commission env tx context with
    | error r => exact ⟨rfl, rfl⟩
    | ok c =>
      by_cases hb : context.GetBalance tx.sender tx.GasCoin < c
      · simp [hb]
      · simp [hb]

/-- C2: a call of `Run` (check or not) whose response code is not `OK` leaves
the state and the reward pool unchanged: no fee, no stake change, no frozen
fund, no nonce. -/
theorem Run_error_leaves_state (env : Env Address Pubkey CoinSymbol)
    (data : UnbondData Pubkey CoinSymbol) (tx : Transaction Address CoinSymbol)
    (context : State Address Pubkey CoinSymbol) (isCheck : Bool) (rewardPool : Int)
    (currentBlock : Nat)
    (h : (data.Run env tx context isCheck rewardPool currentBlock).response.map Response.Code
      ≠ some Code.OK) :
    (data.Run env tx context isCheck rewardPool currentBlock).state = context ∧
    (data.Run env tx context isCheck rewardPool currentBlock).rewardPool = rewardPool :=
  Run_rejected_frame env data tx context isCheck rewardPool currentBlock h

/-- C2 at work: unbonding 600 of a stake of 500 is rejected on delivery and
changes nothing. -/
theorem Run_error_leaves_state_witness :
    ((({ exData with Value := some 600 } : UnbondData (Fin 2) (Fin 3)).Run exEnv exTx exState
        false 0 7).response.map Response.Code = some Code.InsufficientStake) ∧
    (({ exData with Value := some 600 } : UnbondData (Fin 2) (Fin 3)).Run exEnv exTx exState
        false 0 7).state = exState ∧
    (({ exData with Value := some 600 } : UnbondData (Fin 2) (Fin 3)).Run exEnv exTx exState
        false 0 7).rewardPool = 0 :=
  ⟨by decide, Run_error_leaves_state exEnv _ exTx exState false 0 7 (by decide)⟩

/-- C3: an unbond accepted on delivery at block height `h` takes exactly
`data.Value` off the sender's stake in `data.Coin` on `data.PubKey`, leaves
every other stake alone, and adds exactly one frozen fund with release height
`h + 518400`, owner the sender, key `data.PubKey`, coin `data.Coin` and value
`data.Value`. The height is a block height: a value that is not negative of
the signed 64-bit heights of the chain, so `h + 518400` is below `2 ^ 64` and
the unsigned addition of the code is the sum. -/
theorem Run_unbond_effect (env : Env Address Pubkey CoinSymbol)
    (data : UnbondData Pubkey CoinSymbol) (tx : Transaction Address CoinSymbol)
    (context : State Address Pubkey CoinSymbol) (rewardPool : Int) (currentBlock : Nat)
    (hheight : currentBlock + 518400 < 2 ^ 64)
    (h : (data.Run env tx context false rewardPool currentBlock).response.map Response.Code
      = some Code.OK) :
    ∃ value stake, data.Value = some value ∧
      context.GetStakeValueOfAddress data.PubKey tx.sender data.Coin = some stake ∧
      (((data.Run env tx context false rewardPool currentBlock).state.GetStakeValueOfAddress
          data.PubKey tx.sender data.Coin).getD 0 = stake - value) ∧
      (∀ p a c, ¬ (p = data.PubKey ∧ a = tx.sender ∧ c = data.Coin) →
        (data.Run env tx context false rewardPool currentBlock).state.stakes p a c =
          context.stakes p a c) ∧
      (data.Run env tx context false rewardPool currentBlock).state.frozenFunds =
        context.frozenFunds ++
          [{ height := currentBlock + 518400, address := tx.sender,
             candidateKey := some data.PubKey, coin := data.Coin, value := value }] := by
  obtain ⟨value, stake, c, hv, hs, _, _, _, hst, _⟩ :=
    Run_accepted_inv env data tx context false rewardPool currentBlock h
  simp only [Bool.false_eq_true, if_false] at hst
  refine ⟨value, stake, hv, hs, ?_, ?_, ?_⟩
  · rw [hst, State.GetStakeValueOfAddress, apply_stakes env data value tx context _ c _ stake hs]
    by_cases hz : stake - value = 0
    · simp [hz]
    · simp [hz]
  · intro p a coin hne
    rw [hst, apply_stakes env data value tx context _ c _ stake hs]
    simp [hne]
  · rw [hst, apply_frozenFunds]
    have hsum : addUint64 currentBlock unbondPeriod = currentBlock + 518400 := by
      unfold addUint64 unbondPeriod
      exact Nat.mod_eq_of_lt hheight
    rw [hsum]

/-- C3 at work: a stake of 500 unbonded by 200 at height 7 becomes 300, with one
frozen fund of 200 releasing at height 518407. -/
theorem Run_unbond_effect_witness :
    (exData.Run exEnv exTx exState false 0 7).response.map Response.Code = some Code.OK ∧
    ((exData.Run exEnv exTx exState false 0 7).state.GetStakeValueOfAddress
        exData.PubKey exTx.sender exData.Coin) = some 300 ∧
    ∃ value stake, exData.Value = some value ∧
      exState.GetStakeValueOfAddress exData.PubKey exTx.sender exData.Coin = some stake ∧
      (((exData.Run exEnv exTx exState false 0 7).state.GetStakeValueOfAddress
          exData.PubKey exTx.sender exData.Coin).getD 0 = stake - value) ∧
      (∀ p a c, ¬ (p = exData.PubKey ∧ a = exTx.sender ∧ c = exData.Coin) →
        (exData.Run exEnv exTx exState false 0 7).state.stakes p a c = exState.stakes p a c) ∧
      (exData.Run exEnv exTx exState false 0 7).state.frozenFunds =
        exState.frozenFunds ++
          [{ height := 7 + 518400, address := exTx.sender,
             candidateKey := some exData.PubKey, coin := exData.Coin, value := value }] :=
  ⟨by decide, by decide,
   Run_unbond_effect exEnv exData exTx exState 0 7 (by decide) (by decide)⟩

/-- C4: `BasicCheck` returns nil exactly when the value is present, the coin and
the candidate exist, the sender has a stake in the coin on the candidate and
the stake is at least the value (equal is accepted); otherwise it answers with
the code of the first failing check, in the order `DecodeError`,
`CoinNotExists`, `CandidateNotFound`, `StakeNotFound`, `InsufficientStake`. -/
theorem BasicCheck_spec (env : Env Address Pubkey CoinSymbol)
    (data : UnbondData Pubkey CoinSymbol) (tx : Transaction Address CoinSymbol)
    (context : State Address Pubkey CoinSymbol) :
    (data.BasicCheck env tx context = none ↔
      ∃ value stake, data.Value = some value ∧ context.CoinExists env data.Coin = true ∧
        context.CandidateExists data.PubKey = true ∧
        context.GetStakeValueOfAddress data.PubKey tx.sender data.Coin = some stake ∧
        value ≤ stake) ∧
    ((data.BasicCheck env tx context).map Response.Code = some Code.DecodeError ↔
      data.Value = none) ∧
    ((data.BasicCheck env tx context).map Response.Code = some Code.CoinNotExists ↔
      data.Value ≠ none ∧ context.CoinExists env data.Coin = false) ∧
    ((data.BasicCheck env tx context).map Response.Code = some Code.CandidateNotFound ↔
      data.Value ≠ none ∧ context.CoinExists env data.Coin = true ∧
        context.CandidateExists data.PubKey = false) ∧
    ((data.BasicCheck env tx context).map Response.Code = some Code.StakeNotFound ↔
      data.Value ≠ none ∧ context.CoinExists env data.Coin = true ∧
        context.CandidateExists data.PubKey = true ∧
        context.GetStakeValueOfAddress data.PubKey tx.sender data.Coin = none) ∧
    ((data.BasicCheck env tx context).map Response.Code = some Code.InsufficientStake ↔
      ∃ value stake, data.Value = some value ∧ context.CoinExists env data.Coin = true ∧
        context.CandidateExists data.PubKey = true ∧
        context.GetStakeValueOfAddress data.PubKey tx.sender data.Coin = some stake ∧
        stake < value) := by
  refine ⟨BasicCheck_none_iff env data tx context, ?_⟩
  rw [BasicCheck_code env data tx context]
  cases hv : data.Value with
  | none => simp
  | some value =>
    cases hc : context.CoinExists env data.Coin with
    | false => simp
    | true =>
      cases hp : context.CandidateExists data.PubKey with
      | false => simp
      | true =>
        cases hs : context.GetStakeValueOfAddress data.PubKey tx.sender data.Coin with
        | none => simp
        | some stake =>
          by_cases hlt : stake < value
          · simp [hlt]
          · simp [hlt]

/-- C5 as stated fails: `Run` does not compare the nonce of the transaction with
the nonce of the sender. An unbond with nonce 7 from a sender whose nonce is 0
is accepted on delivery and leaves the sender with nonce 7, not 1. -/
theorem Run_nonce_not_incremented :
    (exData.Run exEnv { exTx with Nonce := 7 } exState false 0 7).response.map Response.Code
      = some Code.OK ∧
    exState.nonces exTx.sender = 0 ∧
    (exData.Run exEnv { exTx with Nonce := 7 } exState false 0 7).state.nonces exTx.sender
      = 7 ∧
    (exData.Run exEnv { exTx with Nonce := 7 } exState false 0 7).state.nonces exTx.sender
      ≠ exState.nonces exTx.sender + 1 := by
  decide

/-- C5, amended: after an unbond accepted on delivery the nonce of the sender is
the nonce of the transaction and every other nonce is as before; so the nonce
of the sender went up by one exactly when the transaction carried the nonce
before plus one. -/
theorem Run_sets_nonce (env : Env Address Pubkey CoinSymbol)
    (data : UnbondData Pubkey CoinSymbol) (tx : Transaction Address CoinSymbol)
    (context : State Address Pubkey CoinSymbol) (rewardPool : Int) (currentBlock : Nat)
    (h : (data.Run env tx context false rewardPool currentBlock).response.map Response.Code
      = some Code.OK) :
    (data.Run env tx context false rewardPool currentBlock).state.nonces tx.sender = tx.Nonce ∧
    (∀ a, a ≠ tx.sender →
      (data.Run env tx context false rewardPool currentBlock).state.nonces a =
        context.nonces a) ∧
    ((data.Run env tx context false rewardPool currentBlock).state.nonces tx.sender =
        context.nonces tx.sender + 1 ↔ tx.Nonce = context.nonces tx.sender + 1) := by
  obtain ⟨value, stake, c, _, _, _, _, _, hst, _⟩ :=
    Run_accepted_inv env data tx context false rewardPool currentBlock h
  simp only [Bool.false_eq_true, if_false] at hst
  rw [hst, apply_nonces]
  refine ⟨by simp, fun a ha => by simp [ha], by simp⟩

/-- C5 at work: the example unbond carries nonce 1, the sender has nonce 0
before and nonce 1 after. -/
theorem Run_sets_nonce_witness :
    (exData.Run exEnv exTx exState false 0 7).response.map Response.Code = some Code.OK ∧
    (exData.Run exEnv exTx exState false 0 7).state.nonces exTx.sender = exTx.Nonce ∧
    (∀ a, a ≠ exTx.sender →
      (exData.Run exEnv exTx exState false 0 7).state.nonces a = exState.nonces a) ∧
    ((exData.Run exEnv exTx exState false 0 7).state.nonces exTx.sender =
        exState.nonces exTx.sender + 1 ↔ exTx.Nonce = exState.nonces exTx.sender + 1) :=
  ⟨by decide, Run_sets_nonce exEnv exData exTx exState 0 7 (by decide)⟩

/-- C6: an unbond accepted on delivery takes exactly the commission off the
sender's balance in the gas coin and adds exactly the commission in base coin
to the reward pool; the commission is the commission in base coin when the gas
coin is the base coin, and otherwise the sale amount computed from the record
of the gas coin before the call, whose reserve then goes down by the
commission in base coin and whose volume goes down by the commission. -/
theorem Run_fee_effect (env : Env Address Pubkey CoinSymbol)
    (data : UnbondData Pubkey CoinSymbol) (tx : Transaction Address CoinSymbol)
    (context : State Address Pubkey CoinSymbol) (rewardPool : Int) (currentBlock : Nat)
    (h : (data.Run env tx context false rewardPool currentBlock).response.map Response.Code
      = some Code.OK) :
    ∃ commission : Int,
      ((tx.GasCoin = env.baseCoin ∧ commission = env.CommissionInBaseCoin tx) ∨
       (tx.GasCoin ≠ env.baseCoin ∧ ∃ m m', context.GetCoin tx.GasCoin = some m ∧
          commission =
            env.CalculateSaleAmount m.volume m.reserve m.crr (env.CommissionInBaseCoin tx) ∧
          (data.Run env tx context false rewardPool currentBlock).state.GetCoin tx.GasCoin
            = some m' ∧
          m'.reserve = m.reserve - env.CommissionInBaseCoin tx ∧
          m'.volume = m.volume - commission)) ∧
      (data.Run env tx context false rewardPool currentBlock).state.GetBalance tx.sender
          tx.GasCoin = context.GetBalance tx.sender tx.GasCoin - commission ∧
      (data.Run env tx context false rewardPool currentBlock).rewardPool =
        rewardPool + env.CommissionInBaseCoin tx := by
  obtain ⟨value, stake, c, _, _, _, hc, _, hst, hrp⟩ :=
    Run_accepted_inv env data tx context false rewardPool currentBlock h
  simp only [Bool.false_eq_true, if_false] at hst hrp
  refine ⟨c, ?_, ?_, hrp⟩
  · rcases (commission_ok_iff env tx context c).mp hc with ⟨hb, hcb⟩ | ⟨hb, m, hm, _, _, hcm⟩
    · exact Or.inl ⟨hb, hcb⟩
    · refine Or.inr ⟨hb, m,
        { volume := m.volume - c, reserve := m.reserve - env.CommissionInBaseCoin tx,
          crr := m.crr, CName := m.CName }, hm, hcm, ?_, rfl, rfl⟩
      rw [hst, State.GetCoin, apply_coins_gas env data value tx context _ c _ m hb hm]
      simp
  · rw [hst, State.GetBalance, apply_balances]
    simp [State.GetBalance]

/-- C6 at work: the example unbond pays its fee in XYZ; 10 XYZ leave the sender,
the reward pool gets 10 base units, the reserve and the volume of XYZ go from
1000 to 990. -/
theorem Run_fee_effect_witness :
    (exData.Run exEnv exTx exState false 0 7).response.map Response.Code = some Code.OK ∧
    ∃ commission : Int,
      ((exTx.GasCoin = exEnv.baseCoin ∧ commission = exEnv.CommissionInBaseCoin exTx) ∨
       (exTx.GasCoin ≠ exEnv.baseCoin ∧ ∃ m m', exState.GetCoin exTx.GasCoin = some m ∧
          commission =
            exEnv.CalculateSaleAmount m.volume m.reserve m.crr
              (exEnv.CommissionInBaseCoin exTx) ∧
          (exData.Run exEnv exTx exState false 0 7).state.GetCoin exTx.GasCoin = some m' ∧
          m'.reserve = m.reserve - exEnv.CommissionInBaseCoin exTx ∧
          m'.volume = m.volume - commission)) ∧
      (exData.Run exEnv exTx exState false 0 7).state.GetBalance exTx.sender exTx.GasCoin
        = exState.GetBalance exTx.sender exTx.GasCoin - commission ∧
      (exData.Run exEnv exTx exState false 0 7).rewardPool
        = 0 + exEnv.CommissionInBaseCoin exTx :=
  ⟨by decide, Run_fee_effect exEnv exData exTx exState 0 7 (by decide)⟩

/-- C7: for an unbond that passes `BasicCheck` and, when the gas coin is not the
base coin, both reserve checks, `Run` answers `InsufficientFunds` exactly when
the sender's balance in the gas coin is strictly below the commission; with a
balance equal to or above the commission it answers `OK`. -/
theorem Run_insufficient_funds_iff (env : Env Address Pubkey CoinSymbol)
    (data : UnbondData Pubkey CoinSymbol) (tx : Transaction Address CoinSymbol)
    (context : State Address Pubkey CoinSymbol) (isCheck : Bool) (rewardPool : Int)
    (currentBlock : Nat) (commission : Int)
    (hbasic : data.BasicCheck env tx context = none)
    (hfee : (tx.GasCoin = env.baseCoin ∧ commission = env.CommissionInBaseCoin tx) ∨
      (tx.GasCoin ≠ env.baseCoin ∧ ∃ m, context.GetCoin tx.GasCoin = some m ∧
        CheckReserveUnderflow env m (env.CommissionInBaseCoin tx) = none ∧
        env.CommissionInBaseCoin tx ≤ m.reserve ∧
        commission =
          env.CalculateSaleAmount m.volume m.reserve m.crr (env.CommissionInBaseCoin tx))) :
    ((data.Run env tx context isCheck rewardPool currentBlock).response.map Response.Code
        = some Code.InsufficientFunds ↔
      context.GetBalance tx.sender tx.GasCoin < commission) ∧
    (commission ≤ context.GetBalance tx.sender tx.GasCoin →
      (data.Run env tx context isCheck rewardPool currentBlock).response.map Response.Code
        = some Code.OK) := by
  have hc : UnbondData.commission env tx context = Except.ok commission :=
    (commission_ok_iff env tx context commission).mpr hfee
  unfold UnbondData.Run
  rw [hbasic, hc]
  by_cases hlt : context.GetBalance tx.sender tx.GasCoin < commission
  · simp [hlt, Response.error]
  · cases isCheck <;> simp [hlt, not_lt.mp hlt]

/-- C7 at work, on the boundary: at gas price 5 the commission is 50 XYZ, exactly
the 50 XYZ the example sender holds; the reserve checks pass and the answer is
`OK`. -/
theorem Run_insufficient_funds_iff_witness :
    exData.BasicCheck exEnv { exTx with GasPrice := 5 } exState = none ∧
    exState.GetBalance exTx.sender exTx.GasCoin = 50 ∧
    ((exData.Run exEnv { exTx with GasPrice := 5 } exState false 0 7).response.map
        Response.Code = some Code.InsufficientFunds ↔
      exState.GetBalance exTx.sender exTx.GasCoin < 50) ∧
    (50 ≤ exState.GetBalance exTx.sender exTx.GasCoin →
      (exData.Run exEnv { exTx with GasPrice := 5 } exState false 0 7).response.map
        Response.Code = some Code.OK) :=
  ⟨by decide, by decide,
   Run_insufficient_funds_iff exEnv exData { exTx with GasPrice := 5 } exState false 0 7 50
    (by decide)
    (Or.inr ⟨by decide,
      { volume := 1000, reserve := 1000, crr := 100, CName := "XYZ" },
      by decide, by decide, by decide, by decide⟩)⟩

/-! ### Conservation -/

section ConservationProofs

variable [Fintype Address] [Fintype Pubkey]

/-- The balances in a coin after the changes add up to what they were, less the
commission when the coin is the gas coin. -/
theorem sumOfBalances_apply (env : Env Address Pubkey CoinSymbol)
    (data : UnbondData Pubkey CoinSymbol) (value : Int) (tx : Transaction Address CoinSymbol)
    (s : State Address Pubkey CoinSymbol) (cib c : Int) (h : Nat) (C : CoinSymbol) :
    sumOfBalances (UnbondData.apply env data value tx s cib c h) C =
      sumOfBalances s C - (if C = tx.GasCoin then c else 0) := by
  unfold sumOfBalances
  rw [apply_balances]
  by_cases hC : C = tx.GasCoin
  · have key : ∀ a : Address,
        (if a = tx.sender ∧ C = tx.GasCoin then s.balances a C - c else s.balances a C) =
          s.balances a C - (if a = tx.sender then c else 0) := by
      intro a
      by_cases ha : a = tx.sender <;> simp [ha, hC]
    simp only [key, Finset.sum_sub_distrib, Finset.sum_ite_eq', Finset.mem_univ, if_true]
    simp [hC]
  · simp [hC]

/-- The stakes in a coin after the changes add up to what they were, less the
unbonded value when the coin is the unbonded coin. -/
theorem sumOfStakes_apply (env : Env Address Pubkey CoinSymbol)
    (data : UnbondData Pubkey CoinSymbol) (value : Int) (tx : Transaction Address CoinSymbol)
    (s : State Address Pubkey CoinSymbol) (cib c : Int) (h : Nat) (C : CoinSymbol)
    (stake : Int) (hs : s.stakes data.PubKey tx.sender data.Coin = some stake) :
    sumOfStakes (UnbondData.apply env data value tx s cib c h) C =
      sumOfStakes s C - (if C = data.Coin then value else 0) := by
  unfold sumOfStakes
  rw [apply_stakes env data value tx s cib c h stake hs]
  by_cases hC : C = data.Coin
  · have key : ∀ (p : Pubkey) (a : Address),
        ((if p = data.PubKey ∧ a = tx.sender ∧ C = data.Coin then
            (if stake - value = 0 then none else some (stake - value))
          else s.stakes p a C).getD 0) =
          (s.stakes p a C).getD 0 -
            (if p = data.PubKey then (if a = tx.sender then value else 0) else 0) := by
      intro p a
      by_cases hp : p = data.PubKey
      · by_cases ha : a = tx.sender
        · subst hp ha hC
          rw [hs]
          by_cases hz : stake - value = 0
          · simp [hz]
          · simp [hz]
        · simp [hp, ha]
      · simp [hp]
    simp only [key, Finset.sum_sub_distrib, Finset.sum_ite_eq', Finset.mem_univ, if_true,
      Finset.sum_ite_irrel, Finset.sum_const_zero]
    simp [hC]
  · simp [hC]

/-- The frozen funds in a coin after the changes add up to what they were, plus
the unbonded value when the coin is the unbonded coin. -/
theorem sumOfFrozen_apply (env : Env Address Pubkey CoinSymbol)
    (data : UnbondData Pubkey CoinSymbol) (value : Int) (tx : Transaction Address CoinSymbol)
    (s : State Address Pubkey CoinSymbol) (cib c : Int) (h : Nat) (C : CoinSymbol) :
    sumOfFrozen (UnbondData.apply env data value tx s cib c h) C =
      sumOfFrozen s C + (if C = data.Coin then value else 0) := by
  unfold sumOfFrozen
  rw [apply_frozenFunds]
  by_cases hC : C = data.Coin
  · simp [hC]
  · simp [hC, Ne.symm hC]

/-- The changes of an accepted unbond keep conservation. -/
theorem apply_preserves_Conservation (env : Env Address Pubkey CoinSymbol)
    (data : UnbondData Pubkey CoinSymbol) (value : Int) (tx : Transaction Address CoinSymbol)
    (s : State Address Pubkey CoinSymbol) (c : Int) (h : Nat) (stake : Int)
    (hs : s.stakes data.PubKey tx.sender data.Coin = some stake)
    (hc : UnbondData.commission env tx s = Except.ok c)
    (hcons : Conservation env s) :
    Conservation env (UnbondData.apply env data value tx s (env.CommissionInBaseCoin tx) c h) := by
  intro C hC m' hm'
  rw [sumOfBalances_apply, sumOfStakes_apply env data value tx s _ c h C stake hs,
    sumOfFrozen_apply]
  rcases (commission_ok_iff env tx s c).mp hc with ⟨hb, _⟩ | ⟨hb, m, hm, _, _, _⟩
  · rw [Option.mem_def, apply_coins_base env data value tx s _ c h hb] at hm'
    have hne : C ≠ tx.GasCoin := by rw [hb]; exact hC
    have h0 := hcons C hC m' hm'
    simp only [hne, if_false]
    linarith
  · rw [Option.mem_def, apply_coins_gas env data value tx s _ c h m hb hm] at hm'
    by_cases hg : C = tx.GasCoin
    · simp only [hg, if_true, Option.some.injEq] at hm'
      have h0 := hcons tx.GasCoin hb m hm
      subst hm'
      simp only [hg, if_true]
      linarith
    · simp only [hg, if_false] at hm'
      have h0 := hcons C hC m' hm'
      simp only [hg, if_false]
      linarith

/-- C8: `Run` preserves coin conservation, for any transaction, any `isCheck`
and any outcome: if in the state before, for each coin other than the base
coin, balances plus stakes plus frozen funds equal the volume, the same holds
in the state after, also when the gas coin is the unbonded coin. -/
theorem Run_preserves_Conservation (env : Env Address Pubkey CoinSymbol)
    (data : UnbondData Pubkey CoinSymbol) (tx : Transaction Address CoinSymbol)
    (context : State Address Pubkey CoinSymbol) (isCheck : Bool) (rewardPool : Int)
    (currentBlock : Nat) (hcons : Conservation env context) :
    Conservation env (data.Run env tx context isCheck rewardPool currentBlock).state := by
  by_cases hok : (data.Run env tx context isCheck rewardPool currentBlock).response.map
      Response.Code = some Code.OK
  · obtain ⟨value, stake, c, _, hs, _, hc, _, hst, _⟩ :=
      Run_accepted_inv env data tx context isCheck rewardPool currentBlock hok
    rw [hst]
    cases isCheck with
    | true => simpa using hcons
    | false =>
      simpa using apply_preserves_Conservation env data value tx context c currentBlock stake
        hs hc hcons
  · rw [(Run_rejected_frame env data tx context isCheck rewardPool currentBlock hok).1]
    exact hcons

/-- The example state satisfies conservation: 500 XYZ in balances and 500 XYZ
staked against a volume of 1000, 2000 ABC in balances against a volume of
2000. -/
theorem exState_Conservation : Conservation exEnv exState := by
  unfold Conservation
  decide

/-- C8 at work: the example unbond pays its fee in XYZ and unbonds XYZ, gas coin
and unbonded coin being the same; conservation holds before and after. -/
theorem Run_preserves_Conservation_witness :
    Conservation exEnv exState ∧
    (exData.Run exEnv exTx exState false 0 7).response.map Response.Code = some Code.OK ∧
    exTx.GasCoin = exData.Coin ∧
    Conservation exEnv (exData.Run exEnv exTx exState false 0 7).state :=
  ⟨exState_Conservation, by decide, by decide,
   Run_preserves_Conservation exEnv exData exTx exState false 0 7 exState_Conservation⟩

end ConservationProofs

/-! ### The sell-all estimator -/

/-- The estimator never changes the service it is called on. -/
theorem EstimateCoinSellAll_service (env : Env Address Pubkey CoinSymbol)
    (s : Service Address Pubkey CoinSymbol) (req : EstimateCoinSellAllRequest) :
    (s.EstimateCoinSellAll env req).service = s := by
  unfold Service.EstimateCoinSellAll
  dsimp only
  repeat' split
  all_goals rfl

/-- C9 as stated fails: a same-coin request is answered before the coins are
compared when the state for its height is missing (`NotFound`) or when its
value is not a decimal integer (`InvalidArgument` with an empty info map). -/
theorem EstimateCoinSellAll_same_coin_other_errors :
    (exService.EstimateCoinSellAll exEnv
        { CoinToSell := "XYZ", CoinToBuy := "XYZ", ValueToSell := "100", GasPrice := 1,
          Height := 11 }).reply =
      some ({ WillGet := "" },
        some { code := codes.NotFound, message := "no state", info := [] }) ∧
    (exService.EstimateCoinSellAll exEnv
        { CoinToSell := "XYZ", CoinToBuy := "XYZ", ValueToSell := "1e3", GasPrice := 1,
          Height := 1 }).reply =
      some ({ WillGet := "" },
        some { code := codes.InvalidArgument, message := "Value to sell not specified",
               info := [] }) := by
  decide

/-- C9, amended: a request whose coin to sell and coin to buy are the same
symbol, whose height has a state and whose value to sell is a decimal integer
(whatever its gas price) fails with `InvalidArgument`, the info map carrying
`coin_to_sell` and `coin_to_buy`, and nothing is changed. -/
theorem EstimateCoinSellAll_same_coin (env : Env Address Pubkey CoinSymbol)
    (s : Service Address Pubkey CoinSymbol) (req : EstimateCoinSellAllRequest)
    (cState : State Address Pubkey CoinSymbol) (valueToSell : Int)
    (hstate : s.getStateForHeight req.Height = Except.ok cState)
    (hvalue : setString10 req.ValueToSell = some valueToSell)
    (hsame : env.StrToCoinSymbol req.CoinToSell = env.StrToCoinSymbol req.CoinToBuy) :
    (s.EstimateCoinSellAll env req).reply =
      some ({ WillGet := "" },
        some { code := codes.InvalidArgument,
               message := "\x22From\x22 coin equals to \x22to\x22 coin",
               info := [("coin_to_sell", env.coinString (env.StrToCoinSymbol req.CoinToSell)),
                        ("coin_to_buy", env.coinString (env.StrToCoinSymbol req.CoinToBuy))] }) ∧
    (s.EstimateCoinSellAll env req).service = s := by
  refine ⟨?_, EstimateCoinSellAll_service env s req⟩
  unfold Service.EstimateCoinSellAll
  simp [hstate, hvalue, hsame, EstimateResult.fail, createError]

/-- C9 at work: selling XYZ for XYZ at a known height with a decimal value. -/
theorem EstimateCoinSellAll_same_coin_witness :
    (exService.EstimateCoinSellAll exEnv exSameCoinRequest).reply =
      some ({ WillGet := "" },
        some { code := codes.InvalidArgument,
               message := "\x22From\x22 coin equals to \x22to\x22 coin",
               info := [("coin_to_sell", "XYZ"), ("coin_to_buy", "XYZ")] }) ∧
    (exService.EstimateCoinSellAll exEnv exSameCoinRequest).service = exService :=
  EstimateCoinSellAll_same_coin exEnv exService exSameCoinRequest exState 100 rfl (by decide)
    (by decide)

/-- C10: a successful estimate (state `cState` at the height, value to sell the
decimal integer `v`) is for two distinct existing coins, and with commission
`ConvertTx * CommissionMultiplier` its `WillGet` is the decimal text of: the
purchase return of `v - commission` on the bought coin when the sold coin is
the base coin; the sale return of `v` on the sold coin, less the commission,
when the bought coin is the base coin; the purchase return on the bought coin
of the sale return of `v` on the sold coin less the commission when neither is
the base coin. --/
theorem EstimateCoinSellAll_will_get (env : Env Address Pubkey CoinSymbol)
    (s : Service Address Pubkey CoinSymbol) (req : EstimateCoinSellAllRequest)
    (cState : State Address Pubkey CoinSymbol) (v : Int)
    (hstate : s.getStateForHeight req.Height = Except.ok cState)
    (hvalue : setString10 req.ValueToSell = some v)
    (hok : (s.EstimateCoinSellAll env req).reply.map Prod.snd = some none) :
    env.StrToCoinSymbol req.CoinToSell ≠ env.StrToCoinSymbol req.CoinToBuy ∧
    cState.CoinExists env (env.StrToCoinSymbol req.CoinToSell) = true ∧
    cState.CoinExists env (env.StrToCoinSymbol req.CoinToBuy) = true ∧
    ((env.StrToCoinSymbol req.CoinToSell = env.baseCoin ∧
        ∃ dst, cState.GetCoin (env.StrToCoinSymbol req.CoinToBuy) = some dst ∧
          (s.EstimateCoinSellAll env req).reply =
            some ({ WillGet := toString (env.CalculatePurchaseReturn dst.volume dst.reserve dst.crr
              (v - env.ConvertTx * env.CommissionMultiplier)) }, none)) ∨
     (env.StrToCoinSymbol req.CoinToSell ≠ env.baseCoin ∧
        env.StrToCoinSymbol req.CoinToBuy = env.baseCoin ∧
        ∃ src, cState.GetCoin (env.StrToCoinSymbol req.CoinToSell) = some src ∧
          (s.EstimateCoinSellAll env req).reply =
            some ({ WillGet := toString (env.CalculateSaleReturn src.volume src.reserve src.crr v
              - env.ConvertTx * env.CommissionMultiplier) }, none)) ∨
     (env.StrToCoinSymbol req.CoinToSell ≠ env.baseCoin ∧
        env.StrToCoinSymbol req.CoinToBuy ≠ env.baseCoin ∧
        ∃ src dst, cState.GetCoin (env.StrToCoinSymbol req.CoinToSell) = some src ∧
          cState.GetCoin (env.StrToCoinSymbol req.CoinToBuy) = some dst ∧
          (s.EstimateCoinSellAll env req).reply =
            some ({ WillGet := toString (env.CalculatePurchaseReturn dst.volume dst.reserve dst.crr
              (env.CalculateSaleReturn src.volume src.reserve src.crr v
                - env.ConvertTx * env.CommissionMultiplier)) }, none))) := by
  unfold Service.EstimateCoinSellAll at hok ⊢
  simp only [hstate, hvalue] at hok ⊢
  by_cases hsame : env.StrToCoinSymbol req.CoinToSell = env.StrToCoinSymbol req.CoinToBuy
  · simp [hsame, EstimateResult.fail] at hok
  by_cases hes : cState.CoinExists env (env.StrToCoinSymbol req.CoinToSell) = true
  swap
  · simp [hsame, hes, EstimateResult.fail] at hok
  by_cases heb : cState.CoinExists env (env.StrToCoinSymbol req.CoinToBuy) = true
  swap
  · simp [hsame, hes, heb, EstimateResult.fail] at hok
  refine ⟨hsame, hes, heb, ?_⟩
  simp only [hsame, hes, heb, if_false, Bool.not_true, Bool.false_eq_true] at hok ⊢
  by_cases hsb : env.StrToCoinSymbol req.CoinToSell = env.baseCoin
  · left
    refine ⟨hsb, ?_⟩
    simp only [hsb, if_true] at hok ⊢
    by_cases hpos : 0 < v - env.ConvertTx * env.CommissionMultiplier
    · simp only [hpos, not_true_eq_false, if_false] at hok ⊢
      cases hto : cState.GetCoin (env.StrToCoinSymbol req.CoinToBuy) with
      | none => simp [hto] at hok
      | some dst => exact ⟨dst, rfl, rfl⟩
    · simp [hpos, EstimateResult.fail] at hok
  · right
    simp only [hsb, if_false] at hok ⊢
    by_cases hbb : env.StrToCoinSymbol req.CoinToBuy = env.baseCoin
    · left
      refine ⟨hsb, hbb, ?_⟩
      simp only [hbb, if_true] at hok ⊢
      cases hsrc : cState.GetCoin (env.StrToCoinSymbol req.CoinToSell) with
      | none => simp [hsrc] at hok
      | some src =>
        simp only [hsrc] at hok ⊢
        by_cases hpos : 0 < env.CalculateSaleReturn src.volume src.reserve src.crr v
            - env.ConvertTx * env.CommissionMultiplier
        · exact ⟨src, rfl, by simp [hpos]⟩
        · simp [hpos, EstimateResult.fail] at hok
    · right
      refine ⟨hsb, hbb, ?_⟩
      simp only [hbb, if_false] at hok ⊢
      cases hsrc : cState.GetCoin (env.StrToCoinSymbol req.CoinToSell) with
      | none => simp [hsrc] at hok
      | some src =>
        simp only [hsrc] at hok ⊢
        by_cases hpos : 0 < env.CalculateSaleReturn src.volume src.reserve src.crr v
            - env.ConvertTx * env.CommissionMultiplier
        · simp only [hpos, not_true_eq_false, if_false] at hok ⊢
          cases hto : cState.GetCoin (env.StrToCoinSymbol req.CoinToBuy) with
          | none => simp [hto] at hok
          | some dst => exact ⟨src, dst, rfl, rfl, rfl⟩
        · simp [hpos, EstimateResult.fail] at hok

/-- C10 at work: selling 300 XYZ for ABC gives 300 base units, 200 after the
commission of 100, which buy 400 ABC. -/
theorem EstimateCoinSellAll_will_get_witness :
    (exService.EstimateCoinSellAll exEnv exRequest).reply = some ({ WillGet := "400" }, none) ∧
    exEnv.StrToCoinSymbol exRequest.CoinToSell ≠ exEnv.StrToCoinSymbol exRequest.CoinToBuy ∧
    exState.CoinExists exEnv (exEnv.StrToCoinSymbol exRequest.CoinToSell) = true ∧
    exState.CoinExists exEnv (exEnv.StrToCoinSymbol exRequest.CoinToBuy) = true ∧
    ((exEnv.StrToCoinSymbol exRequest.CoinToSell = exEnv.baseCoin ∧
        ∃ dst, exState.GetCoin (exEnv.StrToCoinSymbol exRequest.CoinToBuy) = some dst ∧
          (exService.EstimateCoinSellAll exEnv exRequest).reply =
            some ({ WillGet := toString (exEnv.CalculatePurchaseReturn dst.volume dst.reserve
              dst.crr (300 - exEnv.ConvertTx * exEnv.CommissionMultiplier)) }, none)) ∨
     (exEnv.StrToCoinSymbol exRequest.CoinToSell ≠ exEnv.baseCoin ∧
        exEnv.StrToCoinSymbol exRequest.CoinToBuy = exEnv.baseCoin ∧
        ∃ src, exState.GetCoin (exEnv.StrToCoinSymbol exRequest.CoinToSell) = some src ∧
          (exService.EstimateCoinSellAll exEnv exRequest).reply =
            some ({ WillGet := toString (exEnv.CalculateSaleReturn src.volume src.reserve
              src.crr 300 - exEnv.ConvertTx * exEnv.CommissionMultiplier) }, none)) ∨
     (exEnv.StrToCoinSymbol exRequest.CoinToSell ≠ exEnv.baseCoin ∧
        exEnv.StrToCoinSymbol exRequest.CoinToBuy ≠ exEnv.baseCoin ∧
        ∃ src dst, exState.GetCoin (exEnv.StrToCoinSymbol exRequest.CoinToSell) = some src ∧
          exState.GetCoin (exEnv.StrToCoinSymbol exRequest.CoinToBuy) = some dst ∧
          (exService.EstimateCoinSellAll exEnv exRequest).reply =
            some ({ WillGet := toString (exEnv.CalculatePurchaseReturn dst.volume dst.reserve
              dst.crr (exEnv.CalculateSaleReturn src.volume src.reserve src.crr 300
                - exEnv.ConvertTx * exEnv.CommissionMultiplier)) }, none))) :=
  ⟨by decide,
   EstimateCoinSellAll_will_get exEnv exService exRequest exState 300 rfl (by decide)
    (by decide)⟩

/-- A coin that exists and is not the base coin has a record. -/
theorem CoinExists_record (env : Env Address Pubkey CoinSymbol)
    (s : State Address Pubkey CoinSymbol) (symbol : CoinSymbol)
    (h : s.CoinExists env symbol = true) (hb : symbol ≠ env.baseCoin) :
    ∃ m, s.GetCoin symbol = some m := by
  unfold State.CoinExists IsBaseCoin at h
  unfold State.GetCoin
  simp only [hb, decide_False, Bool.false_or] at h
  exact Option.isSome_iff_exists.mp h

/-- C11: a request that sells a coin other than the base coin (state available,
value to sell a decimal integer, the two coins distinct and both existing)
succeeds exactly when the sale return of the value on the sold coin, less the
commission, is strictly above zero; when it is zero or below the call fails
with the message "Not enough coins to pay commission" and an empty
`WillGet`. -/
theorem EstimateCoinSellAll_succeeds_iff (env : Env Address Pubkey CoinSymbol)
    (s : Service Address Pubkey CoinSymbol) (req : EstimateCoinSellAllRequest)
    (cState : State Address Pubkey CoinSymbol) (v : Int)
    (hstate : s.getStateForHeight req.Height = Except.ok cState)
    (hvalue : setString10 req.ValueToSell = some v)
    (hne : env.StrToCoinSymbol req.CoinToSell ≠ env.StrToCoinSymbol req.CoinToBuy)
    (hes : cState.CoinExists env (env.StrToCoinSymbol req.CoinToSell) = true)
    (heb : cState.CoinExists env (env.StrToCoinSymbol req.CoinToBuy) = true)
    (hsb : env.StrToCoinSymbol req.CoinToSell ≠ env.baseCoin) :
    ∃ src, cState.GetCoin (env.StrToCoinSymbol req.CoinToSell) = some src ∧
      ((s.EstimateCoinSellAll env req).reply.map Prod.snd = some none ↔
        0 < env.CalculateSaleReturn src.volume src.reserve src.crr v
          - env.ConvertTx * env.CommissionMultiplier) ∧
      (¬ 0 < env.CalculateSaleReturn src.volume src.reserve src.crr v
            - env.ConvertTx * env.CommissionMultiplier →
        ∃ e, (s.EstimateCoinSellAll env req).reply = some ({ WillGet := "" }, some e) ∧
          e.message = "Not enough coins to pay commission") := by
  obtain ⟨src, hsrc⟩ := CoinExists_record env cState _ hes hsb
  refine ⟨src, hsrc, ?_⟩
  unfold Service.EstimateCoinSellAll
  simp only [hstate, hvalue, hne, hes, heb, hsb, if_false, Bool.not_true, Bool.false_eq_true]
  by_cases hbb : env.StrToCoinSymbol req.CoinToBuy = env.baseCoin
  · simp only [hbb, if_true, hsrc]
    by_cases hpos : 0 < env.CalculateSaleReturn src.volume src.reserve src.crr v
        - env.ConvertTx * env.CommissionMultiplier
    · simp [hpos]
    · simp [hpos, EstimateResult.fail, createError]
  · obtain ⟨dst, hdst⟩ := CoinExists_record env cState _ heb hbb
    simp only [hbb, if_false, hsrc, hdst]
    by_cases hpos : 0 < env.CalculateSaleReturn src.volume src.reserve src.crr v
        - env.ConvertTx * env.CommissionMultiplier
    · simp [hpos]
    · simp [hpos, EstimateResult.fail, createError]

/-- C11 at work, on the boundary: selling 100 XYZ for ABC returns 100 base units,
exactly the commission; nothing is left and the call fails. -/
theorem EstimateCoinSellAll_succeeds_iff_witness :
    (exService.EstimateCoinSellAll exEnv exBoundaryRequest).reply.map Prod.snd ≠ some none ∧
    ∃ src, exState.GetCoin (exEnv.StrToCoinSymbol exBoundaryRequest.CoinToSell) = some src ∧
      ((exService.EstimateCoinSellAll exEnv exBoundaryRequest).reply.map Prod.snd = some none ↔
        0 < exEnv.CalculateSaleReturn src.volume src.reserve src.crr 100
          - exEnv.ConvertTx * exEnv.CommissionMultiplier) ∧
      (¬ 0 < exEnv.CalculateSaleReturn src.volume src.reserve src.crr 100
            - exEnv.ConvertTx * exEnv.CommissionMultiplier →
        ∃ e, (exService.EstimateCoinSellAll exEnv exBoundaryRequest).reply =
            some ({ WillGet := "" }, some e) ∧
          e.message = "Not enough coins to pay commission") :=
  ⟨by decide,
   EstimateCoinSellAll_succeeds_iff exEnv exService exBoundaryRequest exState 100 rfl
    (by decide) (by decide) (by decide) (by decide) (by decide)⟩

/-! ### The spending projection -/

/-- C12 fails on the code: `TotalSpend` never returns. For every unbond
transaction and state the call ends in the panic "implement me"; the state is
left as it was. -/
theorem TotalSpend_panics (TotalSpends Conversion : Type)
    (data : UnbondData Pubkey CoinSymbol) (tx : Transaction Address CoinSymbol)
    (context : State Address Pubkey CoinSymbol) :
    (data.TotalSpend tx context :
      TotalSpendResult TotalSpends Conversion Address Pubkey CoinSymbol).returned = none ∧
    (data.TotalSpend tx context :
      TotalSpendResult TotalSpends Conversion Address Pubkey CoinSymbol).state = context :=
  ⟨rfl, rfl⟩

/-! ### Error responses -/

/-- C13 fails on the code: two error responses carry no info map. An unbond
whose value is nil gets `DecodeError` with a log and an empty info map, and an
unbond from a sender without a stake gets `StakeNotFound` with a log and an
empty info map, while the other checks of `BasicCheck` fill the map, as
`CandidateNotFound` and `InsufficientStake` do here. -/
theorem Run_error_without_info :
    (({ exData with Value := none } : UnbondData (Fin 2) (Fin 3)).Run exEnv exTx exState
        false 0 7).response =
      some { Code := Code.DecodeError, Log := "Incorrect tx data", Info := [],
             GasUsed := 0, GasWanted := 0, Tags := [] } ∧
    (exData.Run exEnv { exTx with sender := 1 } exState false 0 7).response =
      some { Code := Code.StakeNotFound, Log := "Stake of current user not found", Info := [],
             GasUsed := 0, GasWanted := 0, Tags := [] } ∧
    (({ exData with PubKey := 1 } : UnbondData (Fin 2) (Fin 3)).BasicCheck exEnv exTx
        exState).map Response.Info = some [("pub_key", "Mp01")] ∧
    (({ exData with Value := some 600 } : UnbondData (Fin 2) (Fin 3)).BasicCheck exEnv exTx
        exState).map Response.Info = some [("pub_key", "Mp00")] := by
  decide

/-! ### Node start-up -/

/-- C14: with both directories ensured, `runNode` panics on a configuration
with `KeepLastStates < 1` before the application is built or anything after it
(the consensus node among it) happens; with `KeepLastStates >= 1` the check
lets the call through: the application is built and the call goes on. -/
theorem runNode_keep_last_states (cfg : Config) (home : String)
    (ensureDir : String → Option String) (after : RunNodeResult)
    (hconfig : ensureDir (home ++ "/config") = none)
    (htmdata : ensureDir (home ++ "/tmdata") = none) :
    (cfg.KeepLastStates < 1 →
      (runNode cfg home ensureDir after).ending =
          Ending.panicked "keep_last_states field should be greater than 0" ∧
        (runNode cfg home ensureDir after).events =
          [NodeEvent.EnsureDir (home ++ "/config"), NodeEvent.EnsureDir (home ++ "/tmdata")] ∧
        NodeEvent.NewMinterBlockchain ∉ (runNode cfg home ensureDir after).events) ∧
    (1 ≤ cfg.KeepLastStates →
      (runNode cfg home ensureDir after).events =
          [NodeEvent.EnsureDir (home ++ "/config"), NodeEvent.EnsureDir (home ++ "/tmdata"),
           NodeEvent.NewMinterBlockchain] ++ after.events ∧
        (runNode cfg home ensureDir after).ending = after.ending) := by
  unfold runNode
  rw [hconfig, htmdata]
  constructor
  · intro hlt
    simp [hlt]
  · intro hge
    simp [not_lt.mpr hge]

/-- C14 at work: `keep_last_states = 0` panics with two directories ensured and
nothing else done. -/
theorem runNode_keep_last_states_witness :
    (runNode exConfig "/home/minter" (fun _ => none) exAfter) =
      { events := [NodeEvent.EnsureDir "/home/minter/config",
                   NodeEvent.EnsureDir "/home/minter/tmdata"],
        ending := Ending.panicked "keep_last_states field should be greater than 0" } ∧
    ((exConfig.KeepLastStates < 1 →
      (runNode exConfig "/home/minter" (fun _ => none) exAfter).ending =
          Ending.panicked "keep_last_states field should be greater than 0" ∧
        (runNode exConfig "/home/minter" (fun _ => none) exAfter).events =
          [NodeEvent.EnsureDir ("/home/minter" ++ "/config"),
           NodeEvent.EnsureDir ("/home/minter" ++ "/tmdata")] ∧
        NodeEvent.NewMinterBlockchain ∉
          (runNode exConfig "/home/minter" (fun _ => none) exAfter).events) ∧
    (1 ≤ exConfig.KeepLastStates →
      (runNode exConfig "/home/minter" (fun _ => none) exAfter).events =
          [NodeEvent.EnsureDir ("/home/minter" ++ "/config"),
           NodeEvent.EnsureDir ("/home/minter" ++ "/tmdata"),
           NodeEvent.NewMinterBlockchain] ++ exAfter.events ∧
        (runNode exConfig "/home/minter" (fun _ => none) exAfter).ending = exAfter.ending)) :=
  ⟨by decide,
   runNode_keep_last_states exConfig "/home/minter" (fun _ => none) exAfter rfl rfl⟩

/-! ### The reserve guard, the check flag and the gas price -/

/-- C15 as stated fails: with the reserve of the gas coin below the commission
in base coin, an unbond that fails `BasicCheck` is rejected by `BasicCheck`,
before the reserve is looked at. At gas price 200 the commission is 2000 base
units against a reserve of 1000 XYZ, and unbonding 600 of a stake of 500 is
answered `InsufficientStake`, neither `CoinReserveUnderflow` nor
`CoinReserveNotSufficient`. -/
theorem Run_reserve_guard_after_BasicCheck :
    ({ exTx with GasPrice := 200 } : Transaction (Fin 2) (Fin 3)).GasCoin ≠ exEnv.baseCoin ∧
    exState.GetCoin ({ exTx with GasPrice := 200 } : Transaction (Fin 2) (Fin 3)).GasCoin =
      some { volume := 1000, reserve := 1000, crr := 100, CName := "XYZ" } ∧
    (1000 : Int) < exEnv.CommissionInBaseCoin { exTx with GasPrice := 200 } ∧
    (({ exData with Value := some 600 } : UnbondData (Fin 2) (Fin 3)).Run exEnv
        { exTx with GasPrice := 200 } exState false 0 7).response.map Response.Code
      = some Code.InsufficientStake ∧
    (({ exData with Value := some 600 } : UnbondData (Fin 2) (Fin 3)).Run exEnv
        { exTx with GasPrice := 200 } exState false 0 7).response.map Response.Code
      ≠ some Code.CoinReserveUnderflow ∧
    (({ exData with Value := some 600 } : UnbondData (Fin 2) (Fin 3)).Run exEnv
        { exTx with GasPrice := 200 } exState false 0 7).response.map Response.Code
      ≠ some Code.CoinReserveNotSufficient := by
  decide

/-- C15, amended: in `Run` with a gas coin other than the base coin, a reserve
below the commission in base coin means rejection with nothing changed: by
`BasicCheck` with its own response when that fails, and otherwise with the code
`CoinReserveUnderflow` (from `CheckReserveUnderflow`) or
`CoinReserveNotSufficient`. So whenever the fee part computes a sale amount,
the base amount asked for is at most the reserve of the coin. -/
theorem Run_reserve_guard (env : Env Address Pubkey CoinSymbol)
    (data : UnbondData Pubkey CoinSymbol) (tx : Transaction Address CoinSymbol)
    (context : State Address Pubkey CoinSymbol) (isCheck : Bool) (rewardPool : Int)
    (currentBlock : Nat) (m : CoinModel)
    (hgas : tx.GasCoin ≠ env.baseCoin) (hm : context.GetCoin tx.GasCoin = some m) :
    (m.reserve < env.CommissionInBaseCoin tx →
      (data.Run env tx context isCheck rewardPool currentBlock).response.map Response.Code
          ≠ some Code.OK ∧
        (data.Run env tx context isCheck rewardPool currentBlock).state = context ∧
        (data.Run env tx context isCheck rewardPool currentBlock).rewardPool = rewardPool ∧
        ((∃ r, data.BasicCheck env tx context = some r ∧
            (data.Run env tx context isCheck rewardPool currentBlock).response = some r) ∨
          (data.Run env tx context isCheck rewardPool currentBlock).response.map Response.Code
            = some Code.CoinReserveUnderflow ∨
          (data.Run env tx context isCheck rewardPool currentBlock).response.map Response.Code
            = some Code.CoinReserveNotSufficient)) ∧
    (∀ c, UnbondData.commission env tx context = Except.ok c →
      env.CommissionInBaseCoin tx ≤ m.reserve ∧
        c = env.CalculateSaleAmount m.volume m.reserve m.crr (env.CommissionInBaseCoin tx)) := by
  have hsale : ∀ c, UnbondData.commission env tx context = Except.ok c →
      env.CommissionInBaseCoin tx ≤ m.reserve ∧
        c = env.CalculateSaleAmount m.volume m.reserve m.crr (env.CommissionInBaseCoin tx) := by
    intro c hc
    rcases (commission_ok_iff env tx context c).mp hc with ⟨hb, _⟩ | ⟨_, m', hm', _, hle, hcm⟩
    · exact absurd hb hgas
    · have hmm : m' = m := by
        have h1 : some m' = some m := by rw [← hm', ← hm]; rfl
        exact Option.some.inj h1
      subst hmm
      exact ⟨hle, hcm⟩
  refine ⟨fun hlow => ?_, hsale⟩
  have hcode : (data.Run env tx context isCheck rewardPool currentBlock).response.map
      Response.Code ≠ some Code.OK := by
    intro hok
    obtain ⟨_, _, c, _, _, _, hc, _⟩ :=
      Run_accepted_inv env data tx context isCheck rewardPool currentBlock hok
    exact absurd (hsale c hc).1 (not_le.mpr hlow)
  obtain ⟨hst, hrp⟩ := Run_rejected_frame env data tx context isCheck rewardPool currentBlock hcode
  refine ⟨hcode, hst, hrp, ?_⟩
  unfold UnbondData.Run
  cases hb : data.BasicCheck env tx context with
  | some r => exact Or.inl ⟨r, rfl, rfl⟩
  | none =>
    right
    have hc : UnbondData.commission env tx context =
        (match CheckReserveUnderflow env m (env.CommissionInBaseCoin tx) with
          | some errResp => Except.error (some errResp)
          | none => Except.error (some (Response.error Code.CoinReserveNotSufficient
              ("Coin reserve balance is not sufficient for transaction. Has: "
                ++ toString m.reserve ++ ", required " ++ toString (env.CommissionInBaseCoin tx))
              [("has_reserve", toString m.reserve),
               ("commission", toString (env.CommissionInBaseCoin tx)),
               ("gas_coin", m.CName)]))) := by
      unfold UnbondData.commission IsBaseCoin
      simp [hgas, hm, hlow]
    rw [hc]
    cases hu : CheckReserveUnderflow env m (env.CommissionInBaseCoin tx) with
    | some e =>
      left
      simp [CheckReserveUnderflow_code env m _ e hu]
    | none =>
      right
      simp [Response.error]

/-- C15 at work: at gas price 200 the commission is 2000 base units, above the
reserve of 1000 of XYZ; the unbond passes `BasicCheck`, is rejected by the
reserve guard, and nothing changes. -/
theorem Run_reserve_guard_witness :
    (exData.Run exEnv { exTx with GasPrice := 200 } exState false 0 7).response.map
      Response.Code = some Code.CoinReserveUnderflow ∧
    ((1000 : Int) < exEnv.CommissionInBaseCoin { exTx with GasPrice := 200 } →
      (exData.Run exEnv { exTx with GasPrice := 200 } exState false 0 7).response.map
          Response.Code ≠ some Code.OK ∧
        (exData.Run exEnv { exTx with GasPrice := 200 } exState false 0 7).state = exState ∧
        (exData.Run exEnv { exTx with GasPrice := 200 } exState false 0 7).rewardPool = 0 ∧
        ((∃ r, exData.BasicCheck exEnv { exTx with GasPrice := 200 } exState = some r ∧
            (exData.Run exEnv { exTx with GasPrice := 200 } exState false 0 7).response
              = some r) ∨
          (exData.Run exEnv { exTx with GasPrice := 200 } exState false 0 7).response.map
            Response.Code = some Code.CoinReserveUnderflow ∨
          (exData.Run exEnv { exTx with GasPrice := 200 } exState false 0 7).response.map
            Response.Code = some Code.CoinReserveNotSufficient)) ∧
    (∀ c, UnbondData.commission exEnv { exTx with GasPrice := 200 } exState = Except.ok c →
      exEnv.CommissionInBaseCoin { exTx with GasPrice := 200 } ≤ (1000 : Int) ∧
        c = exEnv.CalculateSaleAmount 1000 1000 100
          (exEnv.CommissionInBaseCoin { exTx with GasPrice := 200 })) :=
  ⟨by decide,
   Run_reserve_guard exEnv exData { exTx with GasPrice := 200 } exState false 0 7
    { volume := 1000, reserve := 1000, crr := 100, CName := "XYZ" } (by decide) (by decide)⟩

/-- C16: the response of `Run` does not depend on `isCheck`: on the same
transaction, state, reward pool and block height the check call and the
delivery call give the same response (code, log, info, gas used, gas wanted,
tags), so the check admits an unbond exactly when delivery accepts it. -/
theorem Run_response_independent_of_isCheck (env : Env Address Pubkey CoinSymbol)
    (data : UnbondData Pubkey CoinSymbol) (tx : Transaction Address CoinSymbol)
    (context : State Address Pubkey CoinSymbol) (rewardPool : Int) (currentBlock : Nat) :
    (data.Run env tx context true rewardPool currentBlock).response =
      (data.Run env tx context false rewardPool currentBlock).response := by
  unfold UnbondData.Run
  cases data.BasicCheck env tx context with
  | some r => rfl
  | none =>
    cases UnbondData.commission env tx context with
    | error r => rfl
    | ok c =>
      by_cases hb : context.GetBalance tx.sender tx.GasCoin < c
      · simp [hb]
      · simp [hb]

/-- C17: the outcome of the estimator does not depend on the gas price of the
request: replacing the gas price by any other leaves the reply (the `WillGet`
or the error) the same. -/
theorem EstimateCoinSellAll_independent_of_GasPrice (env : Env Address Pubkey CoinSymbol)
    (s : Service Address Pubkey CoinSymbol) (req : EstimateCoinSellAllRequest)
    (gasPrice : Nat) :
    (s.EstimateCoinSellAll env { req with GasPrice := gasPrice }).reply =
      (s.EstimateCoinSellAll env req).reply := by
  unfold Service.EstimateCoinSellAll
  rfl

/-! ### The repair of the blocks time delta -/

/-- A converted height is a `uint64`. -/
theorem uint64OfInt64_lt (x : Int) : uint64OfInt64 x < 2 ^ 64 := by
  unfold uint64OfInt64
  have h1 : x % 2 ^ 64 < 2 ^ 64 := Int.emod_lt_of_pos x (by norm_num)
  have h2 : 0 ≤ x % 2 ^ 64 := Int.emod_nonneg x (by norm_num)
  omega

/-- The conversion of a height that is not negative is the height. -/
theorem uint64OfInt64_of_nonneg (x : Int) (h0 : 0 ≤ x) (h1 : x < 2 ^ 63) :
    (uint64OfInt64 x : Int) = x := by
  unfold uint64OfInt64
  have h2 : x % 2 ^ 64 = x := Int.emod_eq_of_lt h0 (by omega)
  rw [h2]
  omega

/-- From 20 on, the two subtractions on a `uint64` height do not wrap. -/
theorem subUint64_height (height : Nat) (hlt : height < 2 ^ 64) (hge : 20 ≤ height) :
    subUint64 (subUint64 height 3) 1 = height - 4 ∧ subUint64 height 1 = height - 1 := by
  unfold subUint64
  omega

/-- C18: `updateBlocksTimeDelta` (the database opening) repairs the stored delta
only when the height is at least 20 and the lookup `GetBlocksTimeDelta(height, 3)`
fails. Then `height - 3 - 1` and `height - 1` do not wrap around, the blocks
loaded are those two, and with both there the value set for `height` is the
whole seconds from the header time of block `height - 4` to that of block
`height - 1`. When the height is below 20 or the lookup succeeds no block is
loaded and no delta is set. -/
theorem updateBlocksTimeDelta_spec {Time : Type} (w : BlockStoreEnv Time)
    (hdb : w.dbError = none) :
    ((20 ≤ uint64OfInt64 w.Height ∧
        ∃ e, w.GetBlocksTimeDelta (uint64OfInt64 w.Height) 3 = Except.error e) →
      4 ≤ uint64OfInt64 w.Height ∧
      subUint64 (subUint64 (uint64OfInt64 w.Height) 3) 1 = uint64OfInt64 w.Height - 4 ∧
      subUint64 (uint64OfInt64 w.Height) 1 = uint64OfInt64 w.Height - 1 ∧
      (updateBlocksTimeDelta w).loaded =
        [int64OfUint64 (uint64OfInt64 w.Height - 4), int64OfUint64 (uint64OfInt64 w.Height - 1)] ∧
      (0 ≤ w.Height → w.Height < 2 ^ 63 →
        (updateBlocksTimeDelta w).loaded = [w.Height - 4, w.Height - 1]) ∧
      (∀ timeA timeB,
        w.LoadBlockMeta (int64OfUint64 (uint64OfInt64 w.Height - 4)) = some timeA →
        w.LoadBlockMeta (int64OfUint64 (uint64OfInt64 w.Height - 1)) = some timeB →
        (updateBlocksTimeDelta w).setDelta =
          some (uint64OfInt64 w.Height, w.wholeSeconds timeB timeA))) ∧
    ((uint64OfInt64 w.Height < 20 ∨
        ∃ d, w.GetBlocksTimeDelta (uint64OfInt64 w.Height) 3 = Except.ok d) →
      (updateBlocksTimeDelta w).loaded = [] ∧ (updateBlocksTimeDelta w).setDelta = none) ∧
    ((updateBlocksTimeDelta w).setDelta ≠ none →
      20 ≤ uint64OfInt64 w.Height ∧
        ∃ e, w.GetBlocksTimeDelta (uint64OfInt64 w.Height) 3 = Except.error e) := by
  have hlt := uint64OfInt64_lt w.Height
  refine ⟨?_, ?_, ?_⟩
  · rintro ⟨hge, e, he⟩
    obtain ⟨hs4, hs1⟩ := subUint64_height _ hlt hge
    have hload : (updateBlocksTimeDelta w).loaded =
        [int64OfUint64 (uint64OfInt64 w.Height - 4),
         int64OfUint64 (uint64OfInt64 w.Height - 1)] := by
      unfold updateBlocksTimeDelta
      simp only [hdb, he, hge, if_true, hs4, hs1]
      split <;> rfl
    refine ⟨by omega, hs4, hs1, hload, ?_, ?_⟩
    · intro h0 h63
      have hconv := uint64OfInt64_of_nonneg w.Height h0 h63
      rw [hload]
      unfold int64OfUint64
      have e4 : (uint64OfInt64 w.Height - 4) % 2 ^ 64 = uint64OfInt64 w.Height - 4 :=
        Nat.mod_eq_of_lt (by omega)
      have e1 : (uint64OfInt64 w.Height - 1) % 2 ^ 64 = uint64OfInt64 w.Height - 1 :=
        Nat.mod_eq_of_lt (by omega)
      rw [e4, e1]
      have l4 : uint64OfInt64 w.Height - 4 < 2 ^ 63 := by omega
      have l1 : uint64OfInt64 w.Height - 1 < 2 ^ 63 := by omega
      simp only [l4, l1, if_true]
      have c4 : ((uint64OfInt64 w.Height - 4 : Nat) : Int) = w.Height - 4 := by omega
      have c1 : ((uint64OfInt64 w.Height - 1 : Nat) : Int) = w.Height - 1 := by omega
      rw [c4, c1]
    · intro timeA timeB hA hB
      unfold updateBlocksTimeDelta
      simp only [hdb, he, hge, if_true, hs4, hs1, hA, hB]
  · intro h
    unfold updateBlocksTimeDelta
    rcases h with hsmall | ⟨d, hd⟩
    · simp only [hdb]
      cases hg : w.GetBlocksTimeDelta (uint64OfInt64 w.Height) 3 with
      | ok d => simp [hg]
      | error e => simp [hg, not_le.mpr hsmall]
    · simp [hdb, hd]
  · intro hset
    by_cases hge : 20 ≤ uint64OfInt64 w.Height
    · refine ⟨hge, ?_⟩
      cases hg : w.GetBlocksTimeDelta (uint64OfInt64 w.Height) 3 with
      | error e => exact ⟨e, rfl⟩
      | ok d =>
        exfalso
        apply hset
        unfold updateBlocksTimeDelta
        simp only [hdb, hg]
    · exfalso
      apply hset
      unfold updateBlocksTimeDelta
      simp only [hdb]
      cases hg : w.GetBlocksTimeDelta (uint64OfInt64 w.Height) 3 with
      | ok d => rfl
      | error e => simp [hge]

/-- C18 at work: at height 25 with no stored delta, blocks 21 and 24 are loaded
and the delta set for height 25 is 15 seconds. -/
theorem updateBlocksTimeDelta_spec_witness :
    updateBlocksTimeDelta exBlockStore =
      { loaded := [21, 24], setDelta := some (25, 15), panicked := false, closed := true } ∧
    (((20 ≤ uint64OfInt64 exBlockStore.Height ∧
        ∃ e, exBlockStore.GetBlocksTimeDelta (uint64OfInt64 exBlockStore.Height) 3
          = Except.error e) →
      4 ≤ uint64OfInt64 exBlockStore.Height ∧
      subUint64 (subUint64 (uint64OfInt64 exBlockStore.Height) 3) 1
        = uint64OfInt64 exBlockStore.Height - 4 ∧
      subUint64 (uint64OfInt64 exBlockStore.Height) 1 = uint64OfInt64 exBlockStore.Height - 1 ∧
      (updateBlocksTimeDelta exBlockStore).loaded =
        [int64OfUint64 (uint64OfInt64 exBlockStore.Height - 4),
         int64OfUint64 (uint64OfInt64 exBlockStore.Height - 1)] ∧
      (0 ≤ exBlockStore.Height → exBlockStore.Height < 2 ^ 63 →
        (updateBlocksTimeDelta exBlockStore).loaded =
          [exBlockStore.Height - 4, exBlockStore.Height - 1]) ∧
      (∀ timeA timeB,
        exBlockStore.LoadBlockMeta (int64OfUint64 (uint64OfInt64 exBlockStore.Height - 4))
          = some timeA →
        exBlockStore.LoadBlockMeta (int64OfUint64 (uint64OfInt64 exBlockStore.Height - 1))
          = some timeB →
        (updateBlocksTimeDelta exBlockStore).setDelta =
          some (uint64OfInt64 exBlockStore.Height, exBlockStore.wholeSeconds timeB timeA))) ∧
    ((uint64OfInt64 exBlockStore.Height < 20 ∨
        ∃ d, exBlockStore.GetBlocksTimeDelta (uint64OfInt64 exBlockStore.Height) 3
          = Except.ok d) →
      (updateBlocksTimeDelta exBlockStore).loaded = [] ∧
        (updateBlocksTimeDelta exBlockStore).setDelta = none) ∧
    ((updateBlocksTimeDelta exBlockStore).setDelta ≠ none →
      20 ≤ uint64OfInt64 exBlockStore.Height ∧
        ∃ e, exBlockStore.GetBlocksTimeDelta (uint64OfInt64 exBlockStore.Height) 3
          = Except.error e)) :=
  ⟨by decide, updateBlocksTimeDelta_spec exBlockStore rfl⟩

end Theorems

end Kvant
